import Mathlib

/-!
The rhmq broker: ACL evaluation and per-connection packet handlers

A shallow embedding of `broker/lib/acl/aclcheck.go` and of the packet handlers of
`broker/client.go`, with the properties the specification states about them.

Go strings are Lean strings; the two standard-library string functions the ACL code
uses (`strings.Split` on `/` and `strings.Replace` with a two-byte pattern) are written
out structurally over the characters so that every definition evaluates.
-/

namespace Rhmq

/-! ## Go string helpers -/

/-- Levels of a character sequence: Go `strings.Split(s, "/")`, which always yields at
least one (possibly empty) piece. -/
def splitLevels : List Char → List (List Char)
  | [] => [[]]
  | c :: cs =>
    if c = '/' then [] :: splitLevels cs
    else
      match splitLevels cs with
      | [] => [[c]]
      | l :: ls => (c :: l) :: ls

/-- Go `strings.Split(s, "/")`. -/
def Split (s : String) : List String :=
  (splitLevels s.data).map String.mk

/-- Go `strings.Replace(s, old, new, -1)` for the two-character `old = [a, b]`:
non-overlapping occurrences are replaced from left to right. -/
def replaceAll2 (a b : Char) (new : List Char) : List Char → List Char
  | [] => []
  | [x] => [x]
  | x :: y :: rest =>
    if x = a ∧ y = b then new ++ replaceAll2 a b new rest
    else x :: replaceAll2 a b new (y :: rest)

/-- Go `strings.Replace(tp, "%c", clientid, -1)`. -/
def ReplacePercentC (tp clientid : String) : String :=
  String.mk (replaceAll2 '%' 'c' clientid.data tp.data)

/-- Go `strings.Replace(tp, "%u", username, -1)`. -/
def ReplacePercentU (tp username : String) : String :=
  String.mk (replaceAll2 '%' 'u' username.data tp.data)

/-- Go `strings.HasPrefix(s, p)`. -/
def HasPrefix (s p : String) : Bool :=
  p.data.isPrefixOf s.data

namespace acl

/-! ## ACL data model -/

/-- Modelled from the spec: the declaration of the action and scope constants is not among
the sources; §4.4 names the scopes Pub, Sub and PubSub, and `aclcheck.go` compares them
with the `int` action, so they are pairwise distinct integers. -/
def PUB : Int := 1

/-- Modelled from the spec: see `PUB`. -/
def SUB : Int := 2

/-- Modelled from the spec: see `PUB`. -/
def PUBSUB : Int := 3

/-- Modelled from the spec: the declaration of the subject kinds is not among the sources;
§4.4 names ClientID, Username and IP, and the `switch` of `CheckTopicAuth` needs them
pairwise distinct. -/
def CLIENTID : Int := 1

/-- Modelled from the spec: see `CLIENTID`. -/
def USERNAME : Int := 2

/-- Modelled from the spec: see `CLIENTID`. -/
def IP : Int := 3

/-- Modelled from the spec: the declaration of the two decisions of a rule is not among the
sources; §4.4 names Allow and Deny. -/
def ALLOW : Int := 1

/-- Modelled from the spec: see `ALLOW`. -/
def DENY : Int := 2

/-- One ACL rule (`AuthInfo`), with the fields `aclcheck.go` reads. -/
structure AuthInfo where
  Auth : Int
  Typ : Int
  Val : String
  PubSub : Int
  Topics : List String
  deriving DecidableEq, Repr

/-- The rule list (`ACLConfig`). -/
structure ACLConfig where
  Info : List AuthInfo
  deriving DecidableEq, Repr

/-! ## Tokenizers -/

/-- A `#` occurs only as the whole final level. -/
def hashOnlyFinal : List (List Char) → Bool
  | [] => true
  | [l] => decide (l = ['#']) || !(l.contains '#')
  | l :: ls => !(l.contains '#') && hashOnlyFinal ls

/-- Modelled from the spec: `PublishTopicSpilt` is defined outside the given sources. §4.1:
it splits on `/`, fails on any `+` or `#`, and keeps empty levels as empty tokens. `none`
is the failure. -/
def PublishTopicSpilt (topic : String) : Option (List String) :=
  if topic.data.contains '+' || topic.data.contains '#' then none
  else some (Split topic)

/-- Modelled from the spec: `SubscribeTopicSpilt` is defined outside the given sources.
§4.1: it splits on `/`, permits `+` at any level and `#` only as the final level, and keeps
empty levels as empty tokens. `none` is the failure. -/
def SubscribeTopicSpilt (topic : String) : Option (List String) :=
  if hashOnlyFinal (splitLevels topic.data) then some (Split topic) else none

/-! ## Matchers (`aclcheck.go`, lines 111-149) -/

/-- The `for i, t := range dest` loop of `pubTopicMatch`, from index `i` on. -/
def pubTopicMatchLoop (topic : List String) : Nat → List String → Bool
  | _, [] => true
  | i, t :: rest =>
    if (i : Int) > (topic.length : Int) - 1 then false
    else if t = "#" then true
    else if t = "+" ∨ t = topic.getD i "" then pubTopicMatchLoop topic (i + 1) rest
    else if t ≠ topic.getD i "" then false
    else pubTopicMatchLoop topic (i + 1) rest

/-- `pubTopicMatch(pub, des)`: both split errors are discarded, and a failed split leaves
the nil slice. -/
def pubTopicMatch (pub des : String) : Bool :=
  let dest := (SubscribeTopicSpilt des).getD []
  let topic := (PublishTopicSpilt pub).getD []
  pubTopicMatchLoop topic 0 dest

/-- The `for i, t := range dest` loop of `subTopicMatch`, from index `i` on. -/
def subTopicMatchLoop (topic : List String) : Nat → List String → Bool
  | _, [] => true
  | i, t :: rest =>
    if (i : Int) > (topic.length : Int) - 1 then false
    else if t = "#" then true
    else if t = "+" ∨ "+" = topic.getD i "" ∨ t = topic.getD i "" then
      subTopicMatchLoop topic (i + 1) rest
    else if t ≠ topic.getD i "" then false
    else subTopicMatchLoop topic (i + 1) rest

/-- `subTopicMatch(pub, des)`: both sides go through the subscribe splitter. -/
def subTopicMatch (pub des : String) : Bool :=
  let dest := (SubscribeTopicSpilt des).getD []
  let topic := (SubscribeTopicSpilt pub).getD []
  subTopicMatchLoop topic 0 dest

/-! ## Rule evaluation (`aclcheck.go`, lines 6-109) -/

/-- `AuthInfo.checkAuth`. -/
def AuthInfo.checkAuth (a : AuthInfo) (typ : Int) : Bool :=
  if typ = PUB then
    if a.Auth = ALLOW ∧ (a.PubSub = PUB ∨ a.PubSub = PUBSUB) then true
    else if a.Auth = DENY ∧ a.PubSub = SUB then true
    else false
  else if typ = SUB then
    if a.Auth = ALLOW ∧ (a.PubSub = SUB ∨ a.PubSub = PUBSUB) then true
    else if a.Auth = DENY ∧ a.PubSub = PUB then true
    else false
  else false

/-- The body of the `for _, tp := range a.Topics` loop shared by the three `checkWith...`
methods, for the already substituted pattern `des`; the state is `(match, auth)`. -/
def AuthInfo.checkStep (a : AuthInfo) (typ : Int) (topic : String) (st : Bool × Bool)
    (des : String) : Bool × Bool :=
  if typ = PUB then
    if pubTopicMatch topic des then (true, a.checkAuth PUB) else st
  else if typ = SUB then
    if subTopicMatch topic des then (true, a.checkAuth SUB) else st
  else st

/-- `AuthInfo.checkWithClientID`; the result is `(match, auth)`. -/
def AuthInfo.checkWithClientID (a : AuthInfo) (typ : Int) (clientid topic : String) :
    Bool × Bool :=
  if a.Val = "*" ∨ a.Val = clientid then
    a.Topics.foldl
      (fun st tp => a.checkStep typ topic st (ReplacePercentC tp clientid)) (false, false)
  else (false, false)

/-- `AuthInfo.checkWithUsername`; the result is `(match, auth)`. -/
def AuthInfo.checkWithUsername (a : AuthInfo) (typ : Int) (username topic : String) :
    Bool × Bool :=
  if a.Val = "*" ∨ a.Val = username then
    a.Topics.foldl
      (fun st tp => a.checkStep typ topic st (ReplacePercentU tp username)) (false, false)
  else (false, false)

/-- `AuthInfo.checkWithIP`; the result is `(match, auth)`. -/
def AuthInfo.checkWithIP (a : AuthInfo) (typ : Int) (ip topic : String) : Bool × Bool :=
  if a.Val = "*" ∨ a.Val = ip then
    a.Topics.foldl (fun st tp => a.checkStep typ topic st tp) (false, false)
  else (false, false)

/-- The `for _, info := range ACLInfo.Info` loop of `CheckTopicAuth`. -/
def CheckTopicAuthLoop (typ : Int) (ip username clientid topic : String) :
    List AuthInfo → Bool
  | [] => false
  | info :: rest =>
    if info.Typ = CLIENTID then
      if (info.checkWithClientID typ clientid topic).1 then
        (info.checkWithClientID typ clientid topic).2
      else CheckTopicAuthLoop typ ip username clientid topic rest
    else if info.Typ = USERNAME then
      if (info.checkWithUsername typ username topic).1 then
        (info.checkWithUsername typ username topic).2
      else CheckTopicAuthLoop typ ip username clientid topic rest
    else if info.Typ = IP then
      if (info.checkWithIP typ ip topic).1 then (info.checkWithIP typ ip topic).2
      else CheckTopicAuthLoop typ ip username clientid topic rest
    else CheckTopicAuthLoop typ ip username clientid topic rest

/-- `CheckTopicAuth(ACLInfo, typ, ip, username, clientid, topic)`. -/
def CheckTopicAuth (ACLInfo : ACLConfig) (typ : Int) (ip username clientid topic : String) :
    Bool :=
  CheckTopicAuthLoop typ ip username clientid topic ACLInfo.Info

/-! ## Vocabulary of the specification (§4.1, §4.4) -/

/-- The value a rule's kind selects among client-id, username and ip. -/
def selectedSubject (kind : Int) (ip username clientid : String) : Option String :=
  if kind = CLIENTID then some clientid
  else if kind = USERNAME then some username
  else if kind = IP then some ip
  else none

/-- A rule's subject matches: its value is `*` or equals the selected value. -/
def subjectMatches (a : AuthInfo) (ip username clientid : String) : Bool :=
  match selectedSubject a.Typ ip username clientid with
  | some v => decide (a.Val = "*" ∨ a.Val = v)
  | none => false

/-- The pattern a rule of the given kind hands to the matcher, as the `des` of the
`checkWith...` method that `CheckTopicAuth` selects for the kind. -/
def substituted (kind : Int) (username clientid tp : String) : String :=
  if kind = CLIENTID then ReplacePercentC tp clientid
  else if kind = USERNAME then ReplacePercentU tp username
  else tp

/-- The matcher the action selects. -/
def topicMatches (typ : Int) (topic des : String) : Bool :=
  if typ = PUB then pubTopicMatch topic des
  else if typ = SUB then subTopicMatch topic des
  else false

/-- A rule matches a request: its subject matches and at least one of its substituted
topic patterns matches the topic. -/
def ruleMatches (typ : Int) (ip username clientid topic : String) (a : AuthInfo) : Bool :=
  subjectMatches a ip username clientid &&
    a.Topics.any (fun tp => topicMatches typ topic (substituted a.Typ username clientid tp))

/-- Specification wording of the substitution: every `%c` becomes the client-id and every
`%u` the username, whatever the rule's kind. -/
def specSubstituted (clientid username tp : String) : String :=
  ReplacePercentU (ReplacePercentC tp clientid) username

/-- A rule matches a request when its patterns are substituted as the specification words
it (`specSubstituted`). -/
def specRuleMatches (typ : Int) (ip username clientid topic : String) (a : AuthInfo) :
    Bool :=
  subjectMatches a ip username clientid &&
    a.Topics.any (fun tp => topicMatches typ topic (specSubstituted clientid username tp))

/-- One level of the publish walk is accepted: the pattern token is `+` or equals the
topic token. -/
def levelOk (t x : String) : Prop := t = "+" ∨ t = x

/-- The publish walk in lockstep over pattern and topic tokens. -/
def pubWalk : List String → List String → Bool
  | [], _ => true
  | _ :: _, [] => false
  | t :: ts, x :: xs =>
    if t = "#" then true
    else if t = "+" ∨ t = x then pubWalk ts xs
    else false

/-- The subscribe walk in lockstep over pattern and requested-filter tokens. -/
def subWalk : List String → List String → Bool
  | [], _ => true
  | _ :: _, [] => false
  | t :: ts, x :: xs =>
    if t = "#" then true
    else if t = "+" ∨ "+" = x ∨ t = x then subWalk ts xs
    else false

end acl

namespace broker

/-! ## Connections and packets (`client.go`) -/

/-- `CLIENT`: an end user's connection. -/
def CLIENT : Int := 0

/-- `ROUTER`: a connection to the router. -/
def ROUTER : Int := 1

/-- Connection status `Connected`. -/
def Connected : Int := 1

/-- Connection status `Disconnected`. -/
def Disconnected : Int := 2

/-- The special topic carrying cluster information. -/
def BrokerInfoTopic : String := "broker000100101info"

/-- Modelled from the spec: the action codes `PUB` and `SUB` that `client.go` hands to
`Broker.CheckTopicAuth` are declared outside the given sources; two distinct integers. -/
def PUB : Int := 1

/-- Modelled from the spec: see `PUB`. -/
def SUB : Int := 2

/-- Modelled from the spec: the QoS constants are declared outside the given sources; §6
and MQTT 3.1.1 give QoS 0, 1, 2 and the SUBACK failure code 0x80. -/
def QosAtMostOnce : Nat := 0

/-- Modelled from the spec: see `QosAtMostOnce`. -/
def QosAtLeastOnce : Nat := 1

/-- Modelled from the spec: see `QosAtMostOnce`. -/
def QosExactlyOnce : Nat := 2

/-- Modelled from the spec: see `QosAtMostOnce`. -/
def QosFailure : Nat := 0x80

/-- The fields of `packets.PublishPacket` the handlers read. -/
structure PublishPacket where
  TopicName : String
  Payload : String
  Qos : Nat
  MessageID : Nat
  Retain : Bool
  Dup : Bool
  deriving DecidableEq, Repr

/-- The fields of `packets.SubscribePacket` the handlers read. -/
structure SubscribePacket where
  MessageID : Nat
  Topics : List String
  Qoss : List Nat
  deriving DecidableEq, Repr

/-- The fields of `packets.UnsubscribePacket` the handlers read. -/
structure UnsubscribePacket where
  MessageID : Nat
  Topics : List String
  deriving DecidableEq, Repr

/-- The control packets `ProcessMessage` dispatches on. -/
inductive ControlPacket where
  | Connack
  | Connect
  | Publish (p : PublishPacket)
  | Puback (MessageID : Nat)
  | Pubrec
  | Pubrel
  | Pubcomp
  | Subscribe (p : SubscribePacket)
  | Suback (MessageID : Nat) (ReturnCodes : List Nat)
  | Unsubscribe (p : UnsubscribePacket)
  | Unsuback (MessageID : Nat)
  | Pingreq
  | Pingresp
  | Disconnect
  deriving DecidableEq, Repr

/-- A `subscription`; the owning connection is named by its client-id. -/
structure subscription where
  client : String
  topic : String
  qos : Nat
  share : Bool
  groupName : String
  deriving DecidableEq, Repr

/-- The `info` record of a connection. -/
structure info where
  clientID : String
  username : String
  keepalive : Nat
  willMsg : Option PublishPacket
  localIP : String
  remoteIP : String
  deriving DecidableEq, Repr

/-- The state of a `client` that the handlers read and write. `broker` and `conn` say
whether the respective pointer is non-nil; `subMap` is the map from the subscribed filter
string to its subscription, in insertion order. -/
structure client where
  typ : Int
  broker : Bool
  conn : Bool
  info : info
  status : Int
  subMap : List (String × subscription)
  rmsgs : List PublishPacket
  deriving DecidableEq, Repr

/-- The action of a bridge event. -/
inductive BridgeAction where
  | Connect
  | Publish
  | Subscribe
  | Unsubscribe
  | Disconnect
  deriving DecidableEq, Repr

/-- A `bridge.Elements` event; the wall-clock timestamp is left out. -/
structure Elements where
  ClientID : String
  Username : String
  Action : BridgeAction
  Payload : String
  Topic : String
  deriving DecidableEq, Repr

/-- The calls a handler makes on its collaborators (socket, broker, trie, session), in
the order it makes them. -/
inductive Effect where
  /-- `broker.Publish(&bridge.Elements{...})` -/
  | bridge (e : Elements)
  /-- `packet.Write(c.conn)` -/
  | write (p : ControlPacket)
  /-- `broker.PublishMessage(packet)` -/
  | publishMessage (p : PublishPacket)
  /-- `topicsMgr.Subscribe(topic, qos, sub)` -/
  | trieSubscribe (topic : String) (qos : Nat) (sub : subscription)
  /-- `topicsMgr.Unsubscribe(topic, sub)` -/
  | trieUnsubscribe (topic : String) (sub : subscription)
  /-- `topicsMgr.Retained(topic, &c.rmsgs)` -/
  | trieRetained (topic : String)
  /-- `topicsMgr.Retain(packet)`, the update of a retained slot; no handler of `client.go`
  makes this call -/
  | trieRetain (p : PublishPacket)
  /-- `session.AddTopic(topic, qos)` -/
  | sessionAddTopic (topic : String) (qos : Nat)
  /-- `session.RemoveTopic(topic)` -/
  | sessionRemoveTopic (topic : String)
  /-- `c.cancelFunc()` -/
  | cancel
  /-- `c.conn.Close()` -/
  | connClose
  /-- `broker.removeClient(c)` -/
  | removeClient
  /-- `broker.OnlineOfflineNotification(clientID, online)` -/
  | onlineOfflineNotification (clientID : String) (online : Bool)
  /-- `broker.ConnectToDiscovery()` -/
  | connectToDiscovery
  /-- `c.ProcessInfo(packet)` -/
  | processInfo (p : PublishPacket)
  deriving DecidableEq, Repr

/-- What the collaborators answer. `CheckTopicAuth` is the broker's ACL decision for
`(action, username, topic)`; `Write` says whether writing a packet to the socket fails,
given the calls made so far; `Subscribe` is the trie's answer `(rqos, err)`, `none` for an
error; `Retained` is the pending list after the trie has been handed it. -/
structure Env where
  CheckTopicAuth : Int → String → String → Bool
  Write : List Effect → ControlPacket → Bool
  Subscribe : String → Nat → subscription → Option Nat
  Retained : String → List PublishPacket → List PublishPacket

/-- A connection together with the calls made so far. -/
abbrev Run := client × List Effect

/-! ## Go map operations on `subMap` -/

/-- `m[k]` with the comma-ok form. -/
def mapGet (m : List (String × subscription)) (k : String) : Option subscription :=
  (m.find? (fun e => e.1 = k)).map (fun e => e.2)

/-- `m[k] = v`. -/
def mapSet (m : List (String × subscription)) (k : String) (v : subscription) :
    List (String × subscription) :=
  if m.any (fun e => e.1 = k) then m.map (fun e => if e.1 = k then (k, v) else e)
  else m ++ [(k, v)]

/-- `delete(m, k)`. -/
def mapDelete (m : List (String × subscription)) (k : String) :
    List (String × subscription) :=
  m.filter (fun e => e.1 ≠ k)

/-! ## Shared-subscription filters -/

/-- The character class `[0-9a-zA-Z_-]`. -/
def isGroupChar (ch : Char) : Bool :=
  ch.isDigit || ch.isLower || ch.isUpper || ch = '_' || ch = '-'

/-- `groupCompile.FindStringSubmatch(topic)` for the expression
`^\$share/([0-9a-zA-Z_-]+)/(.*)$`: `none` when there is no match (the nil slice),
otherwise the submatches 1 and 2 (a slice of length 3). `.` matches no line feed. -/
def FindStringSubmatch (topic : String) : Option (String × String) :=
  if "$share/".data.isPrefixOf topic.data then
    let body := topic.data.drop "$share/".data.length
    let g := body.takeWhile isGroupChar
    match body.dropWhile isGroupChar with
    | '/' :: f =>
      if g ≠ [] ∧ f.contains '\n' = false then some (String.mk g, String.mk f) else none
    | _ => none
  else none

/-- The share handling of `processClientSubscribe` (lines 289-300): `none` when the filter
begins with `$share/` and is malformed, otherwise `(share, groupName, topic)`. -/
def parseShare (topic : String) : Option (Bool × String × String) :=
  if HasPrefix topic "$share/" then
    match FindStringSubmatch topic with
    | none => none
    | some (g, f) => some (true, g, f)
  else some (false, "", topic)

/-! ## Handlers -/

/-- `client.Close`. A call through a nil broker is a failure (`none`). -/
def Close (r : Run) : Option Run :=
  let c := r.1
  let tr := r.2
  if c.status = Disconnected then some (c, tr)
  else
    let tr := tr ++ [Effect.cancel]
    let c := { c with status := Disconnected }
    if c.broker = false then none
    else
      let tr := tr ++ [Effect.bridge
        ⟨c.info.clientID, c.info.username, BridgeAction.Disconnect, "", ""⟩]
      let tr := if c.conn then tr ++ [Effect.connClose] else tr
      let c := { c with conn := false }
      let subs := c.subMap
      let tr := tr ++ [Effect.removeClient]
      let tr := tr ++ subs.map (fun e => Effect.trieUnsubscribe e.2.topic e.2)
      let tr :=
        if c.typ = CLIENT then
          let tr := tr ++ [Effect.onlineOfflineNotification c.info.clientID false]
          match c.info.willMsg with
          | some w => tr ++ [Effect.publishMessage w]
          | none => tr
        else tr
      let tr := if c.typ = ROUTER then tr ++ [Effect.connectToDiscovery] else tr
      some (c, tr)

/-- `client.WriterPacket`: the run afterwards and whether an error is returned. -/
def WriterPacket (env : Env) (r : Run) (packet : Option ControlPacket) :
    Option (Run × Bool) :=
  if r.1.status = Disconnected then some (r, false)
  else
    match packet with
    | none => some (r, false)
    | some p =>
      if r.1.conn = false then
        match Close r with
        | none => none
        | some r' => some (r', true)
      else some ((r.1, r.2 ++ [Effect.write p]), env.Write r.2 p)

/-- `client.processClientPublish`. -/
def processClientPublish (env : Env) (r : Run) (packet : PublishPacket) : Option Run :=
  let c := r.1
  if c.status = Disconnected then some r
  else
    let topic := packet.TopicName
    if c.broker = false then none
    else if env.CheckTopicAuth PUB c.info.username topic = false then some r
    else
      let r : Run := (c, r.2 ++ [Effect.bridge
        ⟨c.info.clientID, c.info.username, BridgeAction.Publish, packet.Payload, topic⟩])
      if packet.Qos = QosAtMostOnce then
        some (r.1, r.2 ++ [Effect.publishMessage packet])
      else if packet.Qos = QosAtLeastOnce then
        match WriterPacket env r (some (ControlPacket.Puback packet.MessageID)) with
        | none => none
        | some (r', err) =>
          if err then some r'
          else some (r'.1, r'.2 ++ [Effect.publishMessage packet])
      else if packet.Qos = QosExactlyOnce then some r
      else some r

/-- `client.processRemotePublish`. -/
def processRemotePublish (r : Run) (packet : PublishPacket) : Option Run :=
  if r.1.status = Disconnected then some r
  else
    if packet.TopicName = BrokerInfoTopic then some (r.1, r.2 ++ [Effect.processInfo packet])
    else some r

/-- `client.ProcessPublish`. -/
def ProcessPublish (env : Env) (r : Run) (packet : PublishPacket) : Option Run :=
  if r.1.typ = CLIENT then processClientPublish env r packet
  else if r.1.typ = ROUTER then processRemotePublish r packet
  else some r

/-- The `for i, topic := range topics` loop of `processClientSubscribe`, from index `i`
on; the state is the run and the return codes assembled so far. Indexing `qoss` out of
range is a failure (`none`). -/
def subscribeLoop (env : Env) (qoss : List Nat) :
    Nat → List String → Run → List Nat → Option (Run × List Nat)
  | _, [], r, retcodes => some (r, retcodes)
  | i, topic :: rest, r, retcodes =>
    let c := r.1
    let t := topic
    if env.CheckTopicAuth SUB c.info.username topic = false then
      subscribeLoop env qoss (i + 1) rest r (retcodes ++ [QosFailure])
    else
      let tr := r.2 ++ [Effect.bridge
        ⟨c.info.clientID, c.info.username, BridgeAction.Subscribe, "", topic⟩]
      match parseShare topic with
      | none => subscribeLoop env qoss (i + 1) rest (c, tr) (retcodes ++ [QosFailure])
      | some (share, groupName, topic) =>
        match qoss.get? i with
        | none => none
        | some q =>
          let sub : subscription := ⟨c.info.clientID, topic, q, share, groupName⟩
          let tr := tr ++ [Effect.trieSubscribe topic q sub]
          match env.Subscribe topic q sub with
          | none => subscribeLoop env qoss (i + 1) rest (c, tr) (retcodes ++ [QosFailure])
          | some rqos =>
            let c := { c with subMap := mapSet c.subMap t sub }
            let tr := tr ++ [Effect.sessionAddTopic t q]
            let retcodes := retcodes ++ [rqos]
            let tr := tr ++ [Effect.trieRetained topic]
            let c := { c with rmsgs := env.Retained topic c.rmsgs }
            subscribeLoop env qoss (i + 1) rest (c, tr) retcodes

/-- The `for _, rm := range c.rmsgs` loop of `processClientSubscribe`: every pending
retained message goes through `WriterPacket`, whose error is only logged. -/
def writeRetained (env : Env) : List PublishPacket → Run → Option Run
  | [], r => some r
  | rm :: rest, r =>
    match WriterPacket env r (some (ControlPacket.Publish rm)) with
    | none => none
    | some (r', _) => writeRetained env rest r'

/-- `client.processClientSubscribe`. -/
def processClientSubscribe (env : Env) (r : Run) (packet : SubscribePacket) : Option Run :=
  if r.1.status = Disconnected then some r
  else if r.1.broker = false then some r
  else
    match subscribeLoop env packet.Qoss 0 packet.Topics r [] with
    | none => none
    | some (r, retcodes) =>
      match WriterPacket env r (some (ControlPacket.Suback packet.MessageID retcodes)) with
      | none => none
      | some (r', err) =>
        if err then some r'
        else writeRetained env r'.1.rmsgs r'

/-- `client.ProcessSubscribe`. -/
def ProcessSubscribe (env : Env) (r : Run) (packet : SubscribePacket) : Option Run :=
  if r.1.typ = CLIENT then processClientSubscribe env r packet else some r

/-- The `for _, topic := range topics` loop of `processClientUnSubscribe`. -/
def unsubscribeLoop : List String → Run → Run
  | [], r => r
  | topic :: rest, r =>
    let c := r.1
    let tr := r.2 ++ [Effect.bridge
      ⟨c.info.clientID, c.info.username, BridgeAction.Unsubscribe, "", topic⟩]
    match mapGet c.subMap topic with
    | some sub =>
      let tr := tr ++ [Effect.trieUnsubscribe sub.topic sub, Effect.sessionRemoveTopic topic]
      unsubscribeLoop rest ({ c with subMap := mapDelete c.subMap topic }, tr)
    | none => unsubscribeLoop rest (c, tr)

/-- `client.processClientUnSubscribe`. -/
def processClientUnSubscribe (env : Env) (r : Run) (packet : UnsubscribePacket) :
    Option Run :=
  if r.1.status = Disconnected then some r
  else if r.1.broker = false then some r
  else
    match WriterPacket env (unsubscribeLoop packet.Topics r)
        (some (ControlPacket.Unsuback packet.MessageID)) with
    | none => none
    | some (r', _) => some r'

/-- `client.ProcessUnSubscribe`. -/
def ProcessUnSubscribe (env : Env) (r : Run) (packet : UnsubscribePacket) : Option Run :=
  if r.1.typ = CLIENT then processClientUnSubscribe env r packet else some r

/-- `client.ProcessPing`. -/
def ProcessPing (env : Env) (r : Run) : Option Run :=
  if r.1.status = Disconnected then some r
  else
    match WriterPacket env r (some ControlPacket.Pingresp) with
    | none => none
    | some (r', _) => some r'

/-- `ProcessMessage` for the message's connection and packet (`none` is the nil packet). -/
def ProcessMessage (env : Env) (r : Run) (ca : Option ControlPacket) : Option Run :=
  match ca with
  | none => some r
  | some (ControlPacket.Publish packet) => ProcessPublish env r packet
  | some (ControlPacket.Subscribe packet) => ProcessSubscribe env r packet
  | some (ControlPacket.Unsubscribe packet) => ProcessUnSubscribe env r packet
  | some ControlPacket.Pingreq => ProcessPing env r
  | some ControlPacket.Disconnect => Close r
  | some _ => some r

/-! ## Vocabulary of the specification (§4.3) -/

/-- The SUBACK return code of one `(filter, requested QoS)` pair as §4.3.2 words it: 0x80
when the ACL denies the filter, when a `$share/` filter is malformed, or when the trie's
Subscribe fails; otherwise the QoS the trie grants. -/
def specReturnCode (env : Env) (clientID username : String) (filter : String) (q : Nat) :
    Nat :=
  if env.CheckTopicAuth SUB username filter = false then 0x80
  else
    match parseShare filter with
    | none => 0x80
    | some (share, groupName, inner) =>
      match env.Subscribe inner q ⟨clientID, inner, q, share, groupName⟩ with
      | none => 0x80
      | some rqos => rqos

/-- The writes of SUBACK packets among the calls. -/
def subackWrites (tr : List Effect) : List (Nat × List Nat) :=
  tr.filterMap (fun e =>
    match e with
    | Effect.write (ControlPacket.Suback mid codes) => some (mid, codes)
    | _ => none)

/-- A retained-slot update occurs among the calls. -/
def hasRetain (tr : List Effect) : Bool :=
  tr.any (fun e =>
    match e with
    | Effect.trieRetain _ => true
    | _ => false)

/-- The calls one iteration of the subscribe loop makes for a filter and its requested
QoS, as §4.3.2 lists them: nothing when the ACL denies the filter; otherwise the Subscribe
bridge event, then (unless a `$share/` filter is malformed) the trie's Subscribe, and when
that succeeds the session entry and the collection of retained messages. -/
def filterCalls (env : Env) (clientID username : String) (filter : String) (q : Nat) :
    List Effect :=
  if env.CheckTopicAuth SUB username filter = false then []
  else
    Effect.bridge ⟨clientID, username, BridgeAction.Subscribe, "", filter⟩ ::
      match parseShare filter with
      | none => []
      | some (share, groupName, inner) =>
        Effect.trieSubscribe inner q ⟨clientID, inner, q, share, groupName⟩ ::
          match env.Subscribe inner q ⟨clientID, inner, q, share, groupName⟩ with
          | none => []
          | some _ => [Effect.sessionAddTopic filter q, Effect.trieRetained inner]

/-- The connection after one iteration of the subscribe loop for a filter and its
requested QoS: changed only when the filter is permitted, well formed and accepted by the
trie, and then in the sub-map entry of the filter and in the pending retained list. -/
def filterUpdate (env : Env) (c : client) (fq : String × Nat) : client :=
  if env.CheckTopicAuth SUB c.info.username fq.1 = false then c
  else
    match parseShare fq.1 with
    | none => c
    | some (share, groupName, inner) =>
      match env.Subscribe inner fq.2 ⟨c.info.clientID, inner, fq.2, share, groupName⟩ with
      | none => c
      | some _ =>
        { c with
          subMap := mapSet c.subMap fq.1 ⟨c.info.clientID, inner, fq.2, share, groupName⟩,
          rmsgs := env.Retained inner c.rmsgs }

/-- The trie calls `Unsubscribe(topic, sub)` among the calls. -/
def unsubscribeCalls (tr : List Effect) : List (String × subscription) :=
  tr.filterMap (fun e =>
    match e with
    | Effect.trieUnsubscribe topic sub => some (topic, sub)
    | _ => none)

/-- The successful trie calls `Subscribe(topic, qos, sub)` among the calls. -/
def subscribeCalls (env : Env) (tr : List Effect) : List (String × subscription) :=
  tr.filterMap (fun e =>
    match e with
    | Effect.trieSubscribe topic q sub =>
      if (env.Subscribe topic q sub).isSome then some (topic, sub) else none
    | _ => none)

/-! ## Read deadline (`client.go`, lines 105-114) -/

/-- `time.Second`, in nanoseconds. -/
def Second : Int := 1000000000

/-- A value brought into the range of `int64` as Go arithmetic on `time.Duration` does. -/
def wrapInt64 (x : Int) : Int := (x + 2 ^ 63) % 2 ^ 64 - 2 ^ 63

/-- `keepAlive := time.Second * time.Duration(c.info.keepalive)` for the `uint16`
keepalive. -/
def keepAlive (keepalive : Nat) : Int :=
  wrapInt64 (Second * ((keepalive % 65536 : Nat) : Int))

/-- `timeOut := keepAlive + (keepAlive / 2)`. -/
def timeOut (keepalive : Nat) : Int :=
  wrapInt64 (keepAlive keepalive + Int.tdiv (keepAlive keepalive) 2)

/-- The argument `time.Now().Add(timeOut)` of `nc.SetReadDeadline` before each read, as an
instant in nanoseconds; `none` stands for the zero `time.Time`, which a connection takes
as "no deadline". The loop hands over the sum whatever the keepalive is. -/
def readDeadline (now : Int) (keepalive : Nat) : Option Int :=
  some (now + timeOut keepalive)

/-! ## Sample collaborators and connection -/

/-- Collaborators that permit everything, never fail a write, grant `min(qos, 1)` and hold
no retained message. -/
def sampleEnv : Env :=
  ⟨fun _ _ _ => true, fun _ _ => false, fun _ q _ => some (min q 1), fun _ l => l⟩

/-- Collaborators as `sampleEnv`, except that the ACL denies every filter beginning with
`secret` and the trie rejects the filter `bad`. -/
def strictEnv : Env :=
  ⟨fun _ _ topic => !("secret".data.isPrefixOf topic.data), fun _ _ => false,
    fun topic q _ => if topic = "bad" then none else some (min q 1), fun _ l => l⟩

/-- A Connected Client-typed connection with broker and socket set and no subscription. -/
def sampleClient : client :=
  ⟨CLIENT, true, true, ⟨"c1", "alice", 30, none, "10.0.0.1", "10.0.0.2"⟩, Connected, [], []⟩

/-- Collaborators as `sampleEnv`, except that the trie holds one retained message for
every filter and appends it to the pending list it is handed. -/
def retainingEnv : Env :=
  ⟨fun _ _ _ => true, fun _ _ => false, fun _ q _ => some (min q 1),
    fun topic l => l ++ [⟨topic, "kept", 0, 0, true, false⟩]⟩

/-- The sample connection with one retained message still pending from an earlier
SUBSCRIBE. -/
def pendingClient : client :=
  { sampleClient with rmsgs := [⟨"old", "kept", 0, 0, true, false⟩] }

end broker

namespace acl

/-! ## Lemmas on rule evaluation -/

theorem checkStep_foldl (a : AuthInfo) (typ : Int) (topic : String) (f : String → String)
    (tps : List String) (st : Bool × Bool) :
    tps.foldl (fun st tp => a.checkStep typ topic st (f tp)) st =
      if tps.any (fun tp => topicMatches typ topic (f tp)) then (true, a.checkAuth typ)
      else st := by
  induction tps generalizing st with
  | nil => simp
  | cons tp tps ih =>
    rw [List.foldl_cons, ih, List.any_cons]
    unfold AuthInfo.checkStep topicMatches
    by_cases hp : typ = PUB
    · subst hp
      by_cases hm : pubTopicMatch topic (f tp) = true
      · simp [hm]
      · simp [hm]
    · by_cases hs : typ = SUB
      · subst hs
        by_cases hm : subTopicMatch topic (f tp) = true
        · simp [hp, hm]
        · simp [hp, hm]
      · simp [hp, hs]

theorem checkWithClientID_eq (a : AuthInfo) (typ : Int) (clientid topic : String) :
    a.checkWithClientID typ clientid topic =
      if (a.Val = "*" ∨ a.Val = clientid) ∧
          a.Topics.any (fun tp => topicMatches typ topic (ReplacePercentC tp clientid)) = true
      then (true, a.checkAuth typ) else (false, false) := by
  unfold AuthInfo.checkWithClientID
  rw [checkStep_foldl a typ topic (fun tp => ReplacePercentC tp clientid)]
  by_cases hv : a.Val = "*" ∨ a.Val = clientid
  · by_cases hm :
        a.Topics.any (fun tp => topicMatches typ topic (ReplacePercentC tp clientid)) = true
    · simp [hv, hm]
    · simp [hv, hm]
  · simp [hv]

theorem checkWithUsername_eq (a : AuthInfo) (typ : Int) (username topic : String) :
    a.checkWithUsername typ username topic =
      if (a.Val = "*" ∨ a.Val = username) ∧
          a.Topics.any (fun tp => topicMatches typ topic (ReplacePercentU tp username)) = true
      then (true, a.checkAuth typ) else (false, false) := by
  unfold AuthInfo.checkWithUsername
  rw [checkStep_foldl a typ topic (fun tp => ReplacePercentU tp username)]
  by_cases hv : a.Val = "*" ∨ a.Val = username
  · by_cases hm :
        a.Topics.any (fun tp => topicMatches typ topic (ReplacePercentU tp username)) = true
    · simp [hv, hm]
    · simp [hv, hm]
  · simp [hv]

theorem checkWithIP_eq (a : AuthInfo) (typ : Int) (ip topic : String) :
    a.checkWithIP typ ip topic =
      if (a.Val = "*" ∨ a.Val = ip) ∧
          a.Topics.any (fun tp => topicMatches typ topic tp) = true
      then (true, a.checkAuth typ) else (false, false) := by
  unfold AuthInfo.checkWithIP
  rw [checkStep_foldl a typ topic (fun tp => tp)]
  by_cases hv : a.Val = "*" ∨ a.Val = ip
  · by_cases hm : a.Topics.any (fun tp => topicMatches typ topic tp) = true
    · simp [hv, hm]
    · simp [hv, hm]
  · simp [hv]

/-- One step of the rule loop: a matching rule decides, any other rule is passed over. -/
theorem CheckTopicAuthLoop_cons (typ : Int) (ip username clientid topic : String)
    (info : AuthInfo) (rest : List AuthInfo) :
    CheckTopicAuthLoop typ ip username clientid topic (info :: rest) =
      if ruleMatches typ ip username clientid topic info = true then info.checkAuth typ
      else CheckTopicAuthLoop typ ip username clientid topic rest := by
  rw [CheckTopicAuthLoop, checkWithClientID_eq, checkWithUsername_eq, checkWithIP_eq]
  have h12 : CLIENTID ≠ USERNAME := by decide
  have h13 : CLIENTID ≠ IP := by decide
  have h23 : USERNAME ≠ IP := by decide
  by_cases h1 : info.Typ = CLIENTID
  · have hr : ruleMatches typ ip username clientid topic info = true ↔
        ((info.Val = "*" ∨ info.Val = clientid) ∧ info.Topics.any
          (fun tp => topicMatches typ topic (ReplacePercentC tp clientid)) = true) := by
      simp [ruleMatches, subjectMatches, selectedSubject, substituted, h1]
    simp only [hr, h1, if_true]
    split_ifs <;> simp_all
  · have h1' : ¬ (USERNAME = CLIENTID) := fun h => h12 h.symm
    by_cases h2 : info.Typ = USERNAME
    · have hr : ruleMatches typ ip username clientid topic info = true ↔
          ((info.Val = "*" ∨ info.Val = username) ∧ info.Topics.any
            (fun tp => topicMatches typ topic (ReplacePercentU tp username)) = true) := by
        simp [ruleMatches, subjectMatches, selectedSubject, substituted, h2, h1']
      simp only [hr, h2, h1', if_true, if_false]
      split_ifs <;> simp_all
    · by_cases h3 : info.Typ = IP
      · have h31 : ¬ (IP = CLIENTID) := fun h => h13 h.symm
        have h32 : ¬ (IP = USERNAME) := fun h => h23 h.symm
        have hr : ruleMatches typ ip username clientid topic info = true ↔
            ((info.Val = "*" ∨ info.Val = ip) ∧ info.Topics.any
              (fun tp => topicMatches typ topic tp) = true) := by
          simp [ruleMatches, subjectMatches, selectedSubject, substituted, h3, h31, h32]
        simp only [hr, h3, h31, h32, if_true, if_false]
        split_ifs <;> simp_all
      · have hr : ruleMatches typ ip username clientid topic info = false := by
          simp [ruleMatches, subjectMatches, selectedSubject, h1, h2, h3]
        simp [hr, h1, h2, h3]

/-! ## C1, C2 -/

/-- C1: `CheckTopicAuth` returns the decision (`checkAuth` for the action) of the first rule
in list order that matches the request, i.e. whose subject matches and one of whose
substituted patterns matches the topic; rules after it play no part, whatever that
decision is; and when no rule matches (the empty list included) the result is `false`. -/
theorem CheckTopicAuth_first_match (cfg : ACLConfig) (typ : Int)
    (ip username clientid topic : String) :
    CheckTopicAuth cfg typ ip username clientid topic =
      match cfg.Info.find? (ruleMatches typ ip username clientid topic) with
      | some a => a.checkAuth typ
      | none => false := by
  unfold CheckTopicAuth
  induction cfg.Info with
  | nil => simp [CheckTopicAuthLoop]
  | cons info rest ih =>
    rw [CheckTopicAuthLoop_cons, List.find?_cons]
    by_cases hm : ruleMatches typ ip username clientid topic info = true
    · simp [hm]
    · simp only [hm, if_false]
      rw [ih]
      simp [hm]

/-- C2: for a matching rule, `checkAuth` permits action Pub exactly when the rule is Allow
scoped to Pub or PubSub, or Deny scoped to Sub, and permits Sub exactly when it is Allow
scoped to Sub or PubSub, or Deny scoped to Pub; it denies in every other case. With the
single rule (Username, alice, [secret/%u], Deny, Pub), alice publishing secret/alice is
denied and alice subscribing secret/alice is permitted, for every ip and client-id. -/
theorem checkAuth_table :
    (∀ a : AuthInfo, a.checkAuth PUB = true ↔
      (a.Auth = ALLOW ∧ (a.PubSub = PUB ∨ a.PubSub = PUBSUB)) ∨
        (a.Auth = DENY ∧ a.PubSub = SUB)) ∧
    (∀ a : AuthInfo, a.checkAuth SUB = true ↔
      (a.Auth = ALLOW ∧ (a.PubSub = SUB ∨ a.PubSub = PUBSUB)) ∨
        (a.Auth = DENY ∧ a.PubSub = PUB)) ∧
    (∀ ip clientid : String,
      CheckTopicAuth ⟨[⟨DENY, USERNAME, "alice", PUB, ["secret/%u"]⟩]⟩ PUB ip "alice" clientid
        "secret/alice" = false) ∧
    (∀ ip clientid : String,
      CheckTopicAuth ⟨[⟨DENY, USERNAME, "alice", PUB, ["secret/%u"]⟩]⟩ SUB ip "alice" clientid
        "secret/alice" = true) := by
  have hsp : SUB ≠ PUB := by decide
  refine ⟨?_, ?_, ?_, ?_⟩
  · intro a
    unfold AuthInfo.checkAuth
    split_ifs <;> simp_all
  · intro a
    unfold AuthInfo.checkAuth
    split_ifs <;> simp_all
  · intro ip clientid
    have h : (AuthInfo.mk DENY USERNAME "alice" PUB ["secret/%u"]).checkWithUsername PUB
        "alice" "secret/alice" = (true, false) := by decide
    have hk : ¬ (USERNAME = CLIENTID) := by decide
    simp [CheckTopicAuth, CheckTopicAuthLoop, h, hk]
  · intro ip clientid
    have h : (AuthInfo.mk DENY USERNAME "alice" PUB ["secret/%u"]).checkWithUsername SUB
        "alice" "secret/alice" = (true, true) := by decide
    have hk : ¬ (USERNAME = CLIENTID) := by decide
    simp [CheckTopicAuth, CheckTopicAuthLoop, h, hk]

/-! ## Lemmas on the matcher loops -/

theorem getD_length_append (pre : List String) (x : String) (xs : List String) (d : String) :
    (pre ++ x :: xs).getD pre.length d = x := by
  induction pre with
  | nil => simp
  | cons y ys ih => simpa using ih

/-- The index-driven loop of `pubTopicMatch` is the lockstep walk over the topic tokens
that remain from index `i` on. -/
theorem pubTopicMatchLoop_append (dest pre topic : List String) :
    pubTopicMatchLoop (pre ++ topic) pre.length dest = pubWalk dest topic := by
  induction dest generalizing pre topic with
  | nil => simp [pubTopicMatchLoop, pubWalk]
  | cons t ts ih =>
    cases topic with
    | nil =>
      have h : (pre.length : Int) > (pre.length : Int) - 1 := by omega
      simp [pubTopicMatchLoop, pubWalk, h]
    | cons x xs =>
      have h : ¬ ((pre.length : Int) > ((pre.length + (xs.length + 1) : Nat) : Int) - 1) := by
        push_cast
        omega
      have hget : (pre ++ x :: xs).getD pre.length "" = x := getD_length_append pre x xs ""
      have hstep := ih (pre ++ [x]) xs
      simp only [List.append_assoc, List.singleton_append, List.length_append,
        List.length_singleton] at hstep
      rw [pubTopicMatchLoop, pubWalk, hget, List.length_append, List.length_cons, hstep]
      simp only [h, if_false]
      by_cases h1 : t = "#"
      · simp [h1]
      · by_cases h2 : t = "+" ∨ t = x
        · simp [h1, h2]
        · have h3 : t ≠ x := fun e => h2 (Or.inr e)
          simp [h1, h2, h3]

theorem pubTopicMatchLoop_zero (dest topic : List String) :
    pubTopicMatchLoop topic 0 dest = pubWalk dest topic := by
  simpa using pubTopicMatchLoop_append dest [] topic

/-- The index-driven loop of `subTopicMatch` is the lockstep walk as well. -/
theorem subTopicMatchLoop_append (dest pre topic : List String) :
    subTopicMatchLoop (pre ++ topic) pre.length dest = subWalk dest topic := by
  induction dest generalizing pre topic with
  | nil => simp [subTopicMatchLoop, subWalk]
  | cons t ts ih =>
    cases topic with
    | nil =>
      have h : (pre.length : Int) > (pre.length : Int) - 1 := by omega
      simp [subTopicMatchLoop, subWalk, h]
    | cons x xs =>
      have h : ¬ ((pre.length : Int) > ((pre.length + (xs.length + 1) : Nat) : Int) - 1) := by
        push_cast
        omega
      have hget : (pre ++ x :: xs).getD pre.length "" = x := getD_length_append pre x xs ""
      have hstep := ih (pre ++ [x]) xs
      simp only [List.append_assoc, List.singleton_append, List.length_append,
        List.length_singleton] at hstep
      rw [subTopicMatchLoop, subWalk, hget, List.length_append, List.length_cons, hstep]
      simp only [h, if_false]
      by_cases h1 : t = "#"
      · simp [h1]
      · by_cases h2 : t = "+" ∨ "+" = x ∨ t = x
        · simp [h1, h2]
        · have h3 : t ≠ x := fun e => h2 (Or.inr (Or.inr e))
          simp [h1, h2, h3]

theorem subTopicMatchLoop_zero (dest topic : List String) :
    subTopicMatchLoop topic 0 dest = subWalk dest topic := by
  simpa using subTopicMatchLoop_append dest [] topic

/-- A pattern matches every topic it is a prefix of. -/
theorem pubWalk_append_self (dest extra : List String) : pubWalk dest (dest ++ extra) = true := by
  induction dest with
  | nil => simp [pubWalk]
  | cons t ts ih => simp [pubWalk, ih]

theorem subWalk_append_self (dest extra : List String) : subWalk dest (dest ++ extra) = true := by
  induction dest with
  | nil => simp [subWalk]
  | cons t ts ih => simp [subWalk, ih]

/-- Without `#` in the pattern the walk succeeds exactly when the topic has at least as
many levels as the pattern and the pattern accepts the leading ones level by level. -/
theorem pubWalk_no_hash (dest topic : List String) (h : "#" ∉ dest) :
    pubWalk dest topic = true ↔
      dest.length ≤ topic.length ∧ List.Forall₂ levelOk dest (topic.take dest.length) := by
  induction dest generalizing topic with
  | nil => simp [pubWalk]
  | cons t ts ih =>
    have ht : t ≠ "#" := fun e => h (by simp [e])
    have hts : "#" ∉ ts := fun e => h (by simp [e])
    cases topic with
    | nil => simp [pubWalk]
    | cons x xs =>
      simp only [pubWalk, ht, if_false, List.length_cons, List.take_succ_cons,
        List.forall₂_cons, Nat.add_le_add_iff_right]
      by_cases h2 : t = "+" ∨ t = x
      · simp only [h2, if_true, ih xs hts]
        simp [levelOk, h2]
      · simp [levelOk, h2]

/-- With the first `#` at position `pre.length` the walk succeeds exactly when the topic
has more levels than that and the pattern accepts the levels before it. -/
theorem pubWalk_hash (pre post topic : List String) (h : "#" ∉ pre) :
    pubWalk (pre ++ "#" :: post) topic = true ↔
      pre.length < topic.length ∧ List.Forall₂ levelOk pre (topic.take pre.length) := by
  induction pre generalizing topic with
  | nil =>
    cases topic with
    | nil => simp [pubWalk]
    | cons x xs => simp [pubWalk]
  | cons t ts ih =>
    have ht : t ≠ "#" := fun e => h (by simp [e])
    have hts : "#" ∉ ts := fun e => h (by simp [e])
    cases topic with
    | nil => simp [pubWalk]
    | cons x xs =>
      simp only [List.cons_append, pubWalk, ht, if_false, List.length_cons,
        List.take_succ_cons, List.forall₂_cons, Nat.add_lt_add_iff_right]
      by_cases h2 : t = "+" ∨ t = x
      · rw [if_pos h2]
        show pubWalk (ts ++ "#" :: post) xs = true ↔ _
        rw [ih xs hts]
        simp [levelOk, h2]
      · simp [levelOk, h2]

/-! ## Lemmas on splitting -/

theorem splitLevels_ne_nil (l : List Char) : splitLevels l ≠ [] := by
  cases l with
  | nil => simp [splitLevels]
  | cons c cs =>
    rw [splitLevels]
    split_ifs
    · simp
    · split <;> simp

/-- Splitting distributes over a `/` separator. -/
theorem splitLevels_append_slash (l m : List Char) :
    splitLevels (l ++ '/' :: m) = splitLevels l ++ splitLevels m := by
  induction l with
  | nil => simp [splitLevels]
  | cons c cs ih =>
    rw [List.cons_append, splitLevels, splitLevels, ih]
    by_cases hc : c = '/'
    · simp [hc]
    · simp only [hc, if_false]
      cases hs : splitLevels cs with
      | nil => exact absurd hs (splitLevels_ne_nil cs)
      | cons lv lvs => simp

/-- A character absent from the string is absent from each of its levels. -/
theorem not_mem_level_of_not_mem (ch : Char) (l : List Char) (h : ch ∉ l) :
    ∀ lv ∈ splitLevels l, ch ∉ lv := by
  induction l with
  | nil => simp [splitLevels]
  | cons c cs ih =>
    have hc : ch ≠ c := fun e => h (by simp [e])
    have hcs : ch ∉ cs := fun e => h (by simp [e])
    have ih := ih hcs
    rw [splitLevels]
    by_cases hs : c = '/'
    · simp only [hs, if_true]
      intro lv hlv
      rcases List.mem_cons.mp hlv with rfl | hlv
      · simp
      · exact ih lv hlv
    · simp only [hs, if_false]
      cases hsp : splitLevels cs with
      | nil => exact absurd hsp (splitLevels_ne_nil cs)
      | cons lv0 lvs =>
        rw [hsp] at ih
        intro lv hlv
        rcases List.mem_cons.mp hlv with rfl | hlv
        · intro hmem
          rcases List.mem_cons.mp hmem with e | hmem
          · exact hc e
          · exact ih lv0 (by simp) hmem
        · exact ih lv (by simp [hlv])

theorem hashOnlyFinal_append_hash (ls : List (List Char)) (h : ∀ lv ∈ ls, '#' ∉ lv) :
    hashOnlyFinal (ls ++ [['#']]) = true := by
  induction ls with
  | nil => simp [hashOnlyFinal]
  | cons l ls ih =>
    have hl : '#' ∉ l := h l (by simp)
    have ih := ih (fun lv hlv => h lv (by simp [hlv]))
    cases hls : ls ++ [['#']] with
    | nil => simp at hls
    | cons m ms =>
      rw [List.cons_append, hls, hashOnlyFinal]
      · rw [hls] at ih
        simp [hl, ih]
      · intro hcontra
        simp at hcontra

theorem data_append_slash_hash (p : String) : (p ++ "/#").data = p.data ++ ['/', '#'] := by
  rw [String.data_append]

/-- A pattern `p/#` with no `#` in `p` splits into the levels of `p` followed by `#`. -/
theorem SubscribeTopicSpilt_slash_hash (p : String) (hp : '#' ∉ p.data) :
    SubscribeTopicSpilt (p ++ "/#") = some (Split p ++ ["#"]) := by
  have hsplit : splitLevels (p ++ "/#").data = splitLevels p.data ++ [['#']] := by
    rw [data_append_slash_hash, splitLevels_append_slash]
    rfl
  unfold SubscribeTopicSpilt Split
  rw [hsplit, hashOnlyFinal_append_hash _ (not_mem_level_of_not_mem '#' p.data hp)]
  simp

/-- The levels of a string without `#` contain no `#` token. -/
theorem hash_not_mem_Split (p : String) (hp : '#' ∉ p.data) : "#" ∉ Split p := by
  unfold Split
  intro hmem
  rcases List.mem_map.mp hmem with ⟨lv, hlv, he⟩
  have hd : lv = ['#'] := by
    have := congrArg String.data he
    simpa using this
  exact not_mem_level_of_not_mem '#' p.data hp lv hlv (by simp [hd])

/-- A topic without wildcard characters passes the publish splitter. -/
theorem PublishTopicSpilt_of_plain (topic : String) (hplus : '+' ∉ topic.data)
    (hhash : '#' ∉ topic.data) : PublishTopicSpilt topic = some (Split topic) := by
  unfold PublishTopicSpilt
  simp [hplus, hhash]

theorem Split_ne_nil (s : String) : Split s ≠ [] := by
  unfold Split
  simpa using splitLevels_ne_nil s.data

/-! ## C3 - C7 -/

/-- C3: the matchers do not require pattern and topic to be exhausted together. Both loops
return `true` for every pattern that is a prefix of the topic tokens, whatever levels
follow; in particular the pattern `a/b` matches the topic `a/b/c` under `pubTopicMatch`
and under `subTopicMatch`, although neither pattern level is `#`. -/
theorem topicMatch_accepts_longer_topic :
    (∀ dest extra : List String, pubTopicMatchLoop (dest ++ extra) 0 dest = true) ∧
    (∀ dest extra : List String, subTopicMatchLoop (dest ++ extra) 0 dest = true) ∧
    pubTopicMatch "a/b/c" "a/b" = true ∧
    subTopicMatch "a/b/c" "a/b" = true ∧
    SubscribeTopicSpilt "a/b" = some ["a", "b"] ∧
    PublishTopicSpilt "a/b/c" = some ["a", "b", "c"] := by
  refine ⟨?_, ?_, by decide, by decide, by decide, by decide⟩
  · intro dest extra
    rw [pubTopicMatchLoop_zero, pubWalk_append_self]
  · intro dest extra
    rw [subTopicMatchLoop_zero, subWalk_append_self]

/-- C4, as the claim states it, fails: the pattern `a/#` does not match the topic `a`, which
has zero levels after `a`. -/
theorem pubTopicMatch_hash_zero_levels :
    pubTopicMatch "a" "a/#" = false ∧ SubscribeTopicSpilt "a/#" = some ["a", "#"] ∧
      PublishTopicSpilt "a" = some ["a"] := by
  decide

/-- C4, amended: a trailing `#` matches one or more remaining topic levels. For every
pattern `p/#` with no `#` in `p` and every publish topic (no `+`, no `#`) whose leading
levels match `p` level by level, `pubTopicMatch` returns true exactly when the topic has
at least one level after those of `p`. -/
theorem pubTopicMatch_trailing_hash (p topic : String) (hp : '#' ∉ p.data)
    (hplus : '+' ∉ topic.data) (hhash : '#' ∉ topic.data)
    (hlead : List.Forall₂ levelOk (Split p) ((Split topic).take (Split p).length)) :
    pubTopicMatch topic (p ++ "/#") = true ↔ (Split p).length < (Split topic).length := by
  unfold pubTopicMatch
  rw [SubscribeTopicSpilt_slash_hash p hp, PublishTopicSpilt_of_plain topic hplus hhash]
  simp only [Option.getD_some]
  rw [pubTopicMatchLoop_zero]
  have h := pubWalk_hash (Split p) [] (Split topic) (hash_not_mem_Split p hp)
  rw [h]
  exact ⟨fun hh => hh.1, fun hh => ⟨hh, hlead⟩⟩

/-- C4, amended, at the two topics of the specification: `a/#` matches `a/b/c/d` and does
not match `a`. -/
theorem pubTopicMatch_trailing_hash_witness :
    pubTopicMatch "a/b/c/d" ("a" ++ "/#") = true ∧ ¬ (pubTopicMatch "a" ("a" ++ "/#") = true) :=
  ⟨(pubTopicMatch_trailing_hash "a" "a/b/c/d" (by decide) (by decide) (by decide)
      (by simp [levelOk, Split, splitLevels])).mpr (by decide),
   fun h => absurd ((pubTopicMatch_trailing_hash "a" "a" (by decide) (by decide) (by decide)
      (by simp [levelOk, Split, splitLevels])).mp h) (by decide)⟩

/-- C5, as the claim states it, fails: the patterns `#` and `+/x` both match the publish
topic `$SYS/x`, whose first level begins with `$`. -/
theorem pubTopicMatch_dollar_topic :
    pubTopicMatch "$SYS/x" "#" = true ∧ pubTopicMatch "$SYS/x" "+/x" = true ∧
      PublishTopicSpilt "$SYS/x" = some ["$SYS", "x"] := by
  decide

/-- C5, amended: the pattern `#` matches every publish topic (no `+`, no `#`), whether or
not its first level begins with `$`; and a first-level `+` consumes the first topic level
whatever that level is, the match then depending on the remaining levels alone. -/
theorem pubTopicMatch_hash_every_topic :
    (∀ topic : String, '+' ∉ topic.data → '#' ∉ topic.data →
      pubTopicMatch topic "#" = true) ∧
    (∀ (x : String) (xs rest : List String),
      pubTopicMatchLoop (x :: xs) 0 ("+" :: rest) = pubTopicMatchLoop xs 0 rest) := by
  constructor
  · intro topic hplus hhash
    have hs : SubscribeTopicSpilt "#" = some ["#"] := by decide
    unfold pubTopicMatch
    rw [hs, PublishTopicSpilt_of_plain topic hplus hhash]
    simp only [Option.getD_some]
    rw [pubTopicMatchLoop_zero]
    cases hsp : Split topic with
    | nil => exact absurd hsp (Split_ne_nil topic)
    | cons x xs => simp [pubWalk]
  · intro x xs rest
    rw [pubTopicMatchLoop_zero, pubTopicMatchLoop_zero]
    simp [pubWalk]

/-- C5, amended, at a topic beginning with `$`. -/
theorem pubTopicMatch_hash_every_topic_witness : pubTopicMatch "$SYS/x" "#" = true :=
  pubTopicMatch_hash_every_topic.1 "$SYS/x" (by decide) (by decide)

/-- C6: for a pattern token list without `#` and a topic token list of the same length the
walk of `pubTopicMatch` returns true exactly when at every level the pattern token is `+`
or equals the topic token; with the first `#` at position `i` it returns true exactly when
the topic has more than `i` levels and the first `i` levels match in that sense. Also
`a/+/c` matches `a/b/c` and not `a/b/d`, and `+/tennis/#` matches `sport/tennis/player1`. -/
theorem pubTopicMatchLoop_spec :
    (∀ dest topic : List String, "#" ∉ dest → dest.length = topic.length →
      (pubTopicMatchLoop topic 0 dest = true ↔ List.Forall₂ levelOk dest topic)) ∧
    (∀ pre post topic : List String, "#" ∉ pre →
      (pubTopicMatchLoop topic 0 (pre ++ "#" :: post) = true ↔
        pre.length < topic.length ∧ List.Forall₂ levelOk pre (topic.take pre.length))) ∧
    pubTopicMatch "a/b/c" "a/+/c" = true ∧
    pubTopicMatch "a/b/d" "a/+/c" = false ∧
    pubTopicMatch "sport/tennis/player1" "+/tennis/#" = true := by
  refine ⟨?_, ?_, by decide, by decide, by decide⟩
  · intro dest topic hd hlen
    rw [pubTopicMatchLoop_zero, pubWalk_no_hash dest topic hd, hlen, List.take_length]
    simp
  · intro pre post topic hpre
    rw [pubTopicMatchLoop_zero, pubWalk_hash pre post topic hpre]

/-- C6 at concrete token lists: an empty topic level is consumed by `+`, and a `#` at
position 1 needs a topic of at least two levels. -/
theorem pubTopicMatchLoop_spec_witness :
    (pubTopicMatchLoop ["sport", ""] 0 ["sport", "+"] = true ↔
      List.Forall₂ levelOk ["sport", "+"] ["sport", ""]) ∧
    (pubTopicMatchLoop ["a"] 0 (["a"] ++ "#" :: []) = true ↔
      [("a" : String)].length < [("a" : String)].length ∧
        List.Forall₂ levelOk ["a"] ([("a" : String)].take [("a" : String)].length)) :=
  ⟨pubTopicMatchLoop_spec.1 ["sport", "+"] ["sport", ""] (by decide) rfl,
   pubTopicMatchLoop_spec.2.1 ["a"] [] ["a"] (by decide)⟩

/-- C7, as the claim states it, fails: for the Username rule with pattern `x/%c` and the IP
rule with pattern `x/%u`, substituting both placeholders would make the rule match the
topic, but the Username rule leaves `%c` and the IP rule leaves `%u` in place, so neither
rule matches and the request is denied. -/
theorem substitution_depends_on_kind :
    specRuleMatches PUB "10.0.0.1" "u1" "c1" "x/c1" ⟨ALLOW, USERNAME, "*", PUBSUB, ["x/%c"]⟩
      = true ∧
    ruleMatches PUB "10.0.0.1" "u1" "c1" "x/c1" ⟨ALLOW, USERNAME, "*", PUBSUB, ["x/%c"]⟩
      = false ∧
    CheckTopicAuth ⟨[⟨ALLOW, USERNAME, "*", PUBSUB, ["x/%c"]⟩]⟩ PUB "10.0.0.1" "u1" "c1"
      "x/c1" = false ∧
    specRuleMatches PUB "10.0.0.1" "u1" "c1" "x/u1" ⟨ALLOW, IP, "*", PUBSUB, ["x/%u"]⟩
      = true ∧
    CheckTopicAuth ⟨[⟨ALLOW, IP, "*", PUBSUB, ["x/%u"]⟩]⟩ PUB "10.0.0.1" "u1" "c1"
      "x/u1" = false ∧
    CheckTopicAuth ⟨[⟨ALLOW, CLIENTID, "*", PUBSUB, ["x/%u"]⟩]⟩ PUB "10.0.0.1" "u1" "c1"
      "x/u1" = false := by
  decide

/-- C7, amended: the substitution depends on the rule's kind. A ClientID rule matches its
patterns with every `%c` replaced by the client-id (and `%u` left as written), a Username
rule with every `%u` replaced by the username (and `%c` left as written), an IP rule with
the patterns as written; in each case the rule matches when its subject matches and one of
these patterns matches the topic, and its decision is then `checkAuth` of the action. -/
theorem substitution_by_kind (a : AuthInfo) (typ : Int) (ip username clientid topic : String) :
    a.checkWithClientID typ clientid topic =
      (if (a.Val = "*" ∨ a.Val = clientid) ∧
          a.Topics.any (fun tp => topicMatches typ topic (ReplacePercentC tp clientid)) = true
        then (true, a.checkAuth typ) else (false, false)) ∧
    a.checkWithUsername typ username topic =
      (if (a.Val = "*" ∨ a.Val = username) ∧
          a.Topics.any (fun tp => topicMatches typ topic (ReplacePercentU tp username)) = true
        then (true, a.checkAuth typ) else (false, false)) ∧
    a.checkWithIP typ ip topic =
      (if (a.Val = "*" ∨ a.Val = ip) ∧
          a.Topics.any (fun tp => topicMatches typ topic tp) = true
        then (true, a.checkAuth typ) else (false, false)) :=
  ⟨checkWithClientID_eq a typ clientid topic, checkWithUsername_eq a typ username topic,
    checkWithIP_eq a typ ip topic⟩

/-! ## C19 -/

theorem subWalk_of_pubWalk (dest topic : List String) (h : pubWalk dest topic = true) :
    subWalk dest topic = true := by
  induction dest generalizing topic with
  | nil => simp [subWalk]
  | cons t ts ih =>
    cases topic with
    | nil => simp [pubWalk] at h
    | cons x xs =>
      rw [pubWalk] at h
      rw [subWalk]
      by_cases h1 : t = "#"
      · simp [h1]
      · rw [if_neg h1] at h
        rw [if_neg h1]
        by_cases h2 : t = "+" ∨ t = x
        · rw [if_pos h2] at h
          have h3 : t = "+" ∨ "+" = x ∨ t = x := by
            rcases h2 with e | e
            · exact Or.inl e
            · exact Or.inr (Or.inr e)
          rw [if_pos h3]
          exact ih xs h
        · rw [if_neg h2] at h
          exact absurd h (by simp)

theorem subWalk_eq_pubWalk (dest topic : List String) (h : "+" ∉ topic) :
    subWalk dest topic = pubWalk dest topic := by
  induction dest generalizing topic with
  | nil => simp [subWalk, pubWalk]
  | cons t ts ih =>
    cases topic with
    | nil => simp [subWalk, pubWalk]
    | cons x xs =>
      have hx : ¬ ("+" = x) := fun e => h (by simp [e])
      have hxs : "+" ∉ xs := fun e => h (by simp [e])
      rw [subWalk, pubWalk, ih xs hxs]
      simp [hx]

/-- C19: the walk of `subTopicMatch` differs from the walk of `pubTopicMatch` only in
accepting a `+` on the requested side. At a level where the request token is `+` the
subscribe walk goes on to the next level (or succeeds at once on a pattern `#`);
whenever the publish walk accepts a pair of token lists the subscribe walk accepts it
too; and on a request token list without `+` the two walks return the same result. -/
theorem subTopicMatchLoop_vs_pub :
    (∀ (topic : List String) (i : Nat) (t : String) (rest : List String),
      topic.get? i = some "+" →
      subTopicMatchLoop topic i (t :: rest) =
        (decide (t = "#") || subTopicMatchLoop topic (i + 1) rest)) ∧
    (∀ dest topic : List String, pubTopicMatchLoop topic 0 dest = true →
      subTopicMatchLoop topic 0 dest = true) ∧
    (∀ dest topic : List String, "+" ∉ topic →
      subTopicMatchLoop topic 0 dest = pubTopicMatchLoop topic 0 dest) := by
  refine ⟨?_, ?_, ?_⟩
  · intro topic i t rest hget
    have hi : i < topic.length := by
      rcases Nat.lt_or_ge i topic.length with h | h
      · exact h
      · rw [List.get?_eq_none.mpr h] at hget
        exact absurd hget (by simp)
    have hg : topic.getD i "" = "+" := by
      rw [List.get?_eq_getElem?] at hget
      simp [List.getD, hget]
    have hc : ¬ ((i : Int) > (topic.length : Int) - 1) := by omega
    rw [subTopicMatchLoop, hg]
    simp only [hc, if_false]
    by_cases h1 : t = "#"
    · simp [h1]
    · simp [h1]
  · intro dest topic h
    rw [pubTopicMatchLoop_zero] at h
    rw [subTopicMatchLoop_zero]
    exact subWalk_of_pubWalk dest topic h
  · intro dest topic h
    rw [pubTopicMatchLoop_zero, subTopicMatchLoop_zero]
    exact subWalk_eq_pubWalk dest topic h

/-- C19 at concrete token lists: the pattern `a/b` accepts the requested filter `a/+`
under the subscribe walk and not under the publish walk, and both walks agree on the
request `a/b/c`. -/
theorem subTopicMatchLoop_vs_pub_witness :
    subTopicMatchLoop ["a", "+"] 1 ["b"] =
      (decide (("b" : String) = "#") || subTopicMatchLoop ["a", "+"] (1 + 1) []) ∧
    subTopicMatchLoop ["a", "b", "c"] 0 ["a", "+", "#"] = true ∧
    subTopicMatchLoop ["a", "b", "c"] 0 ["a", "x"] =
      pubTopicMatchLoop ["a", "b", "c"] 0 ["a", "x"] ∧
    pubTopicMatchLoop ["a", "+"] 0 ["a", "b"] = false ∧
    subTopicMatchLoop ["a", "+"] 0 ["a", "b"] = true :=
  ⟨subTopicMatchLoop_vs_pub.1 ["a", "+"] 1 "b" [] rfl,
   subTopicMatchLoop_vs_pub.2.1 ["a", "+", "#"] ["a", "b", "c"] (by decide),
   subTopicMatchLoop_vs_pub.2.2 ["a", "x"] ["a", "b", "c"] (by decide),
   by decide, by decide⟩

end acl

namespace broker

/-! ## Lemmas on the handlers -/

/-- On a connection that is not Disconnected and has its socket, `WriterPacket` attempts
the write and returns the error the socket reports. -/
theorem WriterPacket_open (env : Env) (c : client) (tr : List Effect) (p : ControlPacket)
    (hs : c.status ≠ Disconnected) (hc : c.conn = true) :
    WriterPacket env (c, tr) (some p) = some ((c, tr ++ [Effect.write p]), env.Write tr p) := by
  simp [WriterPacket, hs, hc]

/-- The calls of `processClientPublish` for a permitted PUBLISH, by QoS. -/
theorem processClientPublish_calls (env : Env) (c : client) (tr : List Effect)
    (packet : PublishPacket) (hs : c.status ≠ Disconnected) (hb : c.broker = true)
    (hc : c.conn = true)
    (hacl : env.CheckTopicAuth PUB c.info.username packet.TopicName = true) :
    processClientPublish env (c, tr) packet =
      some (c, tr ++
        (Effect.bridge ⟨c.info.clientID, c.info.username, BridgeAction.Publish,
            packet.Payload, packet.TopicName⟩ ::
          (if packet.Qos = QosAtMostOnce then [Effect.publishMessage packet]
           else if packet.Qos = QosAtLeastOnce then
             Effect.write (ControlPacket.Puback packet.MessageID) ::
              (if env.Write (tr ++ [Effect.bridge ⟨c.info.clientID, c.info.username,
                  BridgeAction.Publish, packet.Payload, packet.TopicName⟩])
                  (ControlPacket.Puback packet.MessageID) = true then []
               else [Effect.publishMessage packet])
           else []))) := by
  unfold processClientPublish
  simp only [hs, hb, hacl, if_false, Bool.true_eq_false]
  have d10 : ¬ (QosAtLeastOnce = QosAtMostOnce) := by decide
  have d20 : ¬ (QosExactlyOnce = QosAtMostOnce) := by decide
  have d21 : ¬ (QosExactlyOnce = QosAtLeastOnce) := by decide
  by_cases h0 : packet.Qos = QosAtMostOnce
  · simp [h0]
  · by_cases h1 : packet.Qos = QosAtLeastOnce
    · rw [if_neg h0, if_pos h1, if_neg h0, if_pos h1, WriterPacket_open env c _ _ hs hc]
      by_cases hw : env.Write (tr ++ [Effect.bridge ⟨c.info.clientID, c.info.username,
          BridgeAction.Publish, packet.Payload, packet.TopicName⟩])
          (ControlPacket.Puback packet.MessageID) = true
      · simp [hw]
      · simp [hw]
    · by_cases h2 : packet.Qos = QosExactlyOnce
      · simp [h0, h1, h2, d20, d21]
      · simp [h0, h1, h2]

theorem subackWrites_append (a b : List Effect) :
    subackWrites (a ++ b) = subackWrites a ++ subackWrites b := by
  simp [subackWrites, List.filterMap_append]

theorem subackWrites_retained (l : List PublishPacket) :
    subackWrites (l.map (fun rm => Effect.write (ControlPacket.Publish rm))) = [] := by
  induction l with
  | nil => rfl
  | cons rm rest ih =>
    rw [List.map_cons, ← List.singleton_append, subackWrites_append, ih]
    rfl

/-- On an open connection the retained loop writes every pending message in order and
leaves the connection as it is. -/
theorem writeRetained_open (env : Env) (l : List PublishPacket) (c : client)
    (tr : List Effect) (hs : c.status ≠ Disconnected) (hc : c.conn = true) :
    writeRetained env l (c, tr) =
      some (c, tr ++ l.map (fun rm => Effect.write (ControlPacket.Publish rm))) := by
  induction l generalizing tr with
  | nil => simp [writeRetained]
  | cons rm rest ih =>
    rw [writeRetained, WriterPacket_open env c tr _ hs hc]
    simp only
    rw [ih]
    simp

/-- The subscribe loop, when `qoss` is long enough: it returns, appends one return code
per filter as `specReturnCode` gives it, writes nothing to the socket, and leaves status,
socket and `info` of the connection as they are. -/
theorem subscribeLoop_spec (env : Env) (qoss : List Nat) :
    ∀ (topics : List String) (i : Nat) (r : Run) (rc : List Nat),
      i + topics.length ≤ qoss.length →
      ∃ (r' : Run) (new : List Effect),
        subscribeLoop env qoss i topics r rc =
          some (r', rc ++ List.zipWith
            (specReturnCode env r.1.info.clientID r.1.info.username) topics (qoss.drop i)) ∧
        r'.2 = r.2 ++ new ∧ subackWrites new = [] ∧ r'.1.status = r.1.status ∧
        r'.1.conn = r.1.conn ∧ r'.1.info = r.1.info := by
  intro topics
  induction topics with
  | nil =>
    intro i r rc _
    exact ⟨r, [], by simp [subscribeLoop], by simp, rfl, rfl, rfl, rfl⟩
  | cons topic rest ih =>
    intro i r rc hlen
    obtain ⟨c, tr⟩ := r
    have hi : i < qoss.length := by
      simp only [List.length_cons] at hlen
      omega
    have hrest : (i + 1) + rest.length ≤ qoss.length := by
      simp only [List.length_cons] at hlen
      omega
    have hdrop : qoss.drop i = qoss[i] :: qoss.drop (i + 1) := List.drop_eq_getElem_cons hi
    have hget : qoss.get? i = some qoss[i] := by simp [hi]
    rw [hdrop, List.zipWith_cons_cons, subscribeLoop]
    simp only [specReturnCode]
    by_cases hacl : env.CheckTopicAuth SUB c.info.username topic = true
    · simp only [hacl, Bool.true_eq_false, if_false]
      cases hp : parseShare topic with
      | none =>
        obtain ⟨r', new, h1, h2, h3, h4, h5, h6⟩ := ih (i + 1)
          (c, tr ++ [Effect.bridge
            ⟨c.info.clientID, c.info.username, BridgeAction.Subscribe, "", topic⟩])
          (rc ++ [QosFailure]) hrest
        dsimp only at h1 h2 h4 h5 h6
        refine ⟨r', [Effect.bridge
            ⟨c.info.clientID, c.info.username, BridgeAction.Subscribe, "", topic⟩] ++ new,
          ?_, ?_, ?_, h4, h5, h6⟩
        · dsimp only
          rw [h1]
          simp [QosFailure]
        · rw [h2]
          simp
        · rw [subackWrites_append, h3]
          rfl
      | some res =>
        obtain ⟨share, groupName, inner⟩ := res
        simp only [hget]
        cases hsub : env.Subscribe inner qoss[i]
            ⟨c.info.clientID, inner, qoss[i], share, groupName⟩ with
        | none =>
          obtain ⟨r', new, h1, h2, h3, h4, h5, h6⟩ := ih (i + 1)
            (c, tr ++ [Effect.bridge
              ⟨c.info.clientID, c.info.username, BridgeAction.Subscribe, "", topic⟩] ++
              [Effect.trieSubscribe inner qoss[i]
                ⟨c.info.clientID, inner, qoss[i], share, groupName⟩])
            (rc ++ [QosFailure]) hrest
          dsimp only at h1 h2 h4 h5 h6
          refine ⟨r', [Effect.bridge
              ⟨c.info.clientID, c.info.username, BridgeAction.Subscribe, "", topic⟩,
            Effect.trieSubscribe inner qoss[i]
              ⟨c.info.clientID, inner, qoss[i], share, groupName⟩] ++ new,
            ?_, ?_, ?_, h4, h5, h6⟩
          · dsimp only
            rw [h1]
            simp [QosFailure]
          · rw [h2]
            simp
          · rw [subackWrites_append, h3]
            rfl
        | some rqos =>
          obtain ⟨r', new, h1, h2, h3, h4, h5, h6⟩ := ih (i + 1)
            ({ c with
                subMap := mapSet c.subMap topic
                  ⟨c.info.clientID, inner, qoss[i], share, groupName⟩,
                rmsgs := env.Retained inner c.rmsgs },
              tr ++ [Effect.bridge
                ⟨c.info.clientID, c.info.username, BridgeAction.Subscribe, "", topic⟩] ++
              [Effect.trieSubscribe inner qoss[i]
                ⟨c.info.clientID, inner, qoss[i], share, groupName⟩] ++
              [Effect.sessionAddTopic topic qoss[i]] ++ [Effect.trieRetained inner])
            (rc ++ [rqos]) hrest
          dsimp only at h1 h2 h4 h5 h6
          refine ⟨r', [Effect.bridge
              ⟨c.info.clientID, c.info.username, BridgeAction.Subscribe, "", topic⟩,
            Effect.trieSubscribe inner qoss[i]
              ⟨c.info.clientID, inner, qoss[i], share, groupName⟩,
            Effect.sessionAddTopic topic qoss[i], Effect.trieRetained inner] ++ new,
            ?_, ?_, ?_, h4, h5, h6⟩
          · dsimp only
            rw [h1]
            simp
          · rw [h2]
            simp
          · rw [subackWrites_append, h3]
            rfl
    · have hacl' : env.CheckTopicAuth SUB c.info.username topic = false := by
        simpa using hacl
      obtain ⟨r', new, h1, h2, h3, h4, h5, h6⟩ := ih (i + 1) (c, tr) (rc ++ [QosFailure]) hrest
      dsimp only at h1 h2 h4 h5 h6
      refine ⟨r', new, ?_, h2, h3, h4, h5, h6⟩
      simp only [hacl', if_true]
      rw [h1]
      simp [QosFailure]

/-! ## C8 - C10 -/

/-- C8: on a connection that is not Disconnected, with broker and socket set, and for a
PUBLISH the ACL permits, `processClientPublish` emits the Publish bridge event and then
branches on QoS. QoS 0: it calls `PublishMessage(packet)` and writes nothing. QoS 1: it
writes a PUBACK carrying the packet's message-id and then calls `PublishMessage(packet)`,
in that order, and when the PUBACK write fails it does not call `PublishMessage`. QoS 2 or
any other value: it writes nothing and does not call `PublishMessage`. -/
theorem processClientPublish_qos (env : Env) (c : client) (tr : List Effect)
    (packet : PublishPacket) (hs : c.status ≠ Disconnected) (hb : c.broker = true)
    (hc : c.conn = true)
    (hacl : env.CheckTopicAuth PUB c.info.username packet.TopicName = true) :
    (packet.Qos = QosAtMostOnce →
      processClientPublish env (c, tr) packet =
        some (c, tr ++ [Effect.bridge ⟨c.info.clientID, c.info.username,
            BridgeAction.Publish, packet.Payload, packet.TopicName⟩,
          Effect.publishMessage packet])) ∧
    (packet.Qos = QosAtLeastOnce →
      env.Write (tr ++ [Effect.bridge ⟨c.info.clientID, c.info.username,
          BridgeAction.Publish, packet.Payload, packet.TopicName⟩])
        (ControlPacket.Puback packet.MessageID) = false →
      processClientPublish env (c, tr) packet =
        some (c, tr ++ [Effect.bridge ⟨c.info.clientID, c.info.username,
            BridgeAction.Publish, packet.Payload, packet.TopicName⟩,
          Effect.write (ControlPacket.Puback packet.MessageID),
          Effect.publishMessage packet])) ∧
    (packet.Qos = QosAtLeastOnce →
      env.Write (tr ++ [Effect.bridge ⟨c.info.clientID, c.info.username,
          BridgeAction.Publish, packet.Payload, packet.TopicName⟩])
        (ControlPacket.Puback packet.MessageID) = true →
      processClientPublish env (c, tr) packet =
        some (c, tr ++ [Effect.bridge ⟨c.info.clientID, c.info.username,
            BridgeAction.Publish, packet.Payload, packet.TopicName⟩,
          Effect.write (ControlPacket.Puback packet.MessageID)])) ∧
    (packet.Qos ≠ QosAtMostOnce → packet.Qos ≠ QosAtLeastOnce →
      processClientPublish env (c, tr) packet =
        some (c, tr ++ [Effect.bridge ⟨c.info.clientID, c.info.username,
            BridgeAction.Publish, packet.Payload, packet.TopicName⟩])) := by
  have d10 : ¬ (QosAtLeastOnce = QosAtMostOnce) := by decide
  have h := processClientPublish_calls env c tr packet hs hb hc hacl
  refine ⟨?_, ?_, ?_, ?_⟩
  · intro h0
    rw [h]
    simp [h0]
  · intro h1 hw
    rw [h]
    simp [h1, hw, d10]
  · intro h1 hw
    rw [h]
    simp [h1, hw, d10]
  · intro h0 h1
    rw [h]
    simp [h0, h1]

/-- C8 on the sample connection: a QoS 1 PUBLISH with message-id 42 yields the bridge
event, PUBACK(42) and the fan-out call, in that order. -/
theorem processClientPublish_qos_witness :
    processClientPublish sampleEnv (sampleClient, []) ⟨"t", "hello", 1, 42, false, false⟩ =
      some (sampleClient, [Effect.bridge ⟨"c1", "alice", BridgeAction.Publish, "hello", "t"⟩,
        Effect.write (ControlPacket.Puback 42),
        Effect.publishMessage ⟨"t", "hello", 1, 42, false, false⟩]) :=
  (processClientPublish_qos sampleEnv sampleClient [] ⟨"t", "hello", 1, 42, false, false⟩
    (by decide) rfl rfl rfl).2.1 rfl rfl

/-- C9, as the claim states it, fails: for a permitted QoS 0 PUBLISH with the retain flag
set, with a payload or with the empty payload, and for a permitted QoS 1 one, everything
`processClientPublish` does is the bridge event, the PUBACK write (QoS 1) and the fan-out
call; no retained slot is updated before the fan-out. -/
theorem processClientPublish_retain_flag :
    processClientPublish sampleEnv (sampleClient, []) ⟨"t", "hello", 0, 7, true, false⟩ =
      some (sampleClient, [Effect.bridge ⟨"c1", "alice", BridgeAction.Publish, "hello", "t"⟩,
        Effect.publishMessage ⟨"t", "hello", 0, 7, true, false⟩]) ∧
    processClientPublish sampleEnv (sampleClient, []) ⟨"t", "", 0, 7, true, false⟩ =
      some (sampleClient, [Effect.bridge ⟨"c1", "alice", BridgeAction.Publish, "", "t"⟩,
        Effect.publishMessage ⟨"t", "", 0, 7, true, false⟩]) ∧
    processClientPublish sampleEnv (sampleClient, []) ⟨"t", "hello", 1, 7, true, false⟩ =
      some (sampleClient, [Effect.bridge ⟨"c1", "alice", BridgeAction.Publish, "hello", "t"⟩,
        Effect.write (ControlPacket.Puback 7),
        Effect.publishMessage ⟨"t", "hello", 1, 7, true, false⟩]) ∧
    hasRetain [Effect.bridge ⟨"c1", "alice", BridgeAction.Publish, "hello", "t"⟩,
      Effect.publishMessage ⟨"t", "hello", 0, 7, true, false⟩] = false := by
  decide

/-- C9, amended: for every permitted QoS 0 or QoS 1 PUBLISH on a connection that is not
Disconnected, with broker and socket set, whatever its retain flag and payload,
`processClientPublish` returns with the connection unchanged and makes no retained-slot
update; the only packet it hands to `PublishMessage` is the received packet itself, retain
flag and payload as received. -/
theorem processClientPublish_no_retain (env : Env) (c : client) (tr : List Effect)
    (packet : PublishPacket) (hs : c.status ≠ Disconnected) (hb : c.broker = true)
    (hc : c.conn = true)
    (hacl : env.CheckTopicAuth PUB c.info.username packet.TopicName = true)
    (hq : packet.Qos = QosAtMostOnce ∨ packet.Qos = QosAtLeastOnce) :
    ∃ new : List Effect,
      processClientPublish env (c, tr) packet = some (c, tr ++ new) ∧
      hasRetain new = false ∧
      ∀ p : PublishPacket, Effect.publishMessage p ∈ new → p = packet := by
  have d10 : ¬ (QosAtLeastOnce = QosAtMostOnce) := by decide
  refine ⟨_, processClientPublish_calls env c tr packet hs hb hc hacl, ?_, ?_⟩
  · rcases hq with h0 | h1
    · simp [h0, hasRetain]
    · by_cases hw : env.Write (tr ++ [Effect.bridge ⟨c.info.clientID, c.info.username,
          BridgeAction.Publish, packet.Payload, packet.TopicName⟩])
          (ControlPacket.Puback packet.MessageID) = true
      · simp [h1, d10, hw, hasRetain]
      · simp [h1, d10, hw, hasRetain]
  · intro p hp
    rcases hq with h0 | h1
    · simp [h0] at hp
      exact hp
    · by_cases hw : env.Write (tr ++ [Effect.bridge ⟨c.info.clientID, c.info.username,
          BridgeAction.Publish, packet.Payload, packet.TopicName⟩])
          (ControlPacket.Puback packet.MessageID) = true
      · simp [h1, d10, hw] at hp
      · simp [h1, d10, hw] at hp
        exact hp

/-- C9, amended, on the sample connection with a retained QoS 0 PUBLISH. -/
theorem processClientPublish_no_retain_witness :
    ∃ new : List Effect,
      processClientPublish sampleEnv (sampleClient, []) ⟨"t", "hello", 0, 7, true, false⟩ =
        some (sampleClient, [] ++ new) ∧
      hasRetain new = false ∧
      ∀ p : PublishPacket, Effect.publishMessage p ∈ new →
        p = ⟨"t", "hello", 0, 7, true, false⟩ :=
  processClientPublish_no_retain sampleEnv sampleClient [] ⟨"t", "hello", 0, 7, true, false⟩
    (by decide) rfl rfl rfl (Or.inl rfl)

/-- C10: for a SUBSCRIBE with `n` filters and at least `n` requested QoS values, on a
connection that is not Disconnected, with broker and socket set, `processClientSubscribe`
returns and the calls it adds contain exactly one SUBACK write; that SUBACK carries the
SUBSCRIBE's message-id and exactly `n` return codes in filter order, the `i`-th being 0x80
when the ACL denies the `i`-th filter, when that filter begins with `$share/` and is
malformed, or when the trie's Subscribe fails, and otherwise the QoS the trie returned
(`specReturnCode`). -/
theorem processClientSubscribe_suback (env : Env) (c : client) (tr : List Effect)
    (packet : SubscribePacket) (hs : c.status ≠ Disconnected) (hb : c.broker = true)
    (hc : c.conn = true) (hq : packet.Topics.length ≤ packet.Qoss.length) :
    ∃ (r' : Run) (new : List Effect),
      processClientSubscribe env (c, tr) packet = some r' ∧ r'.2 = tr ++ new ∧
      subackWrites new = [(packet.MessageID,
        List.zipWith (specReturnCode env c.info.clientID c.info.username)
          packet.Topics packet.Qoss)] ∧
      (List.zipWith (specReturnCode env c.info.clientID c.info.username)
        packet.Topics packet.Qoss).length = packet.Topics.length := by
  obtain ⟨r1, new1, h1, h2, h3, h4, h5, _⟩ :=
    subscribeLoop_spec env packet.Qoss packet.Topics 0 (c, tr) [] (by simpa using hq)
  obtain ⟨c1, tr1⟩ := r1
  simp only [List.drop_zero, List.nil_append] at h1 h2 h4 h5
  have hs1 : c1.status ≠ Disconnected := by rw [h4]; exact hs
  have hc1 : c1.conn = true := by rw [h5]; exact hc
  have hlen : (List.zipWith (specReturnCode env c.info.clientID c.info.username)
      packet.Topics packet.Qoss).length = packet.Topics.length := by
    rw [List.length_zipWith]
    omega
  unfold processClientSubscribe
  simp only [hs, hb, if_false, Bool.true_eq_false]
  rw [h1]
  simp only
  rw [WriterPacket_open env c1 tr1 _ hs1 hc1]
  simp only
  by_cases hw : env.Write tr1 (ControlPacket.Suback packet.MessageID
      (List.zipWith (specReturnCode env c.info.clientID c.info.username)
        packet.Topics packet.Qoss)) = true
  · refine ⟨_, new1 ++ [Effect.write (ControlPacket.Suback packet.MessageID
      (List.zipWith (specReturnCode env c.info.clientID c.info.username)
        packet.Topics packet.Qoss))], by rw [if_pos hw], ?_, ?_, hlen⟩
    · simp [h2]
    · rw [subackWrites_append, h3]
      rfl
  · rw [if_neg hw, writeRetained_open env _ c1 _ hs1 hc1]
    refine ⟨_, new1 ++ [Effect.write (ControlPacket.Suback packet.MessageID
      (List.zipWith (specReturnCode env c.info.clientID c.info.username)
        packet.Topics packet.Qoss))] ++
      c1.rmsgs.map (fun rm => Effect.write (ControlPacket.Publish rm)), rfl, ?_, ?_, hlen⟩
    · simp [h2]
    · rw [subackWrites_append, subackWrites_append, h3, subackWrites_retained]
      rfl

/-- C10 on the sample connection: a SUBSCRIBE with message-id 9 for a granted filter, an
ACL-denied filter, a malformed shared filter, a filter the trie rejects and a well-formed
shared filter is answered by one SUBACK(9) with the codes 1, 0x80, 0x80, 0x80, 0. -/
theorem processClientSubscribe_suback_witness :
    ∃ (r' : Run) (new : List Effect),
      processClientSubscribe strictEnv (sampleClient, [])
        ⟨9, ["a/+", "secret/x", "$share//f", "bad", "$share/g1/work/#"], [2, 1, 1, 1, 0]⟩
        = some r' ∧
      r'.2 = [] ++ new ∧
      subackWrites new = [(9, [1, 0x80, 0x80, 0x80, 0])] ∧
      ([1, 0x80, 0x80, 0x80, 0] : List Nat).length = 5 :=
  processClientSubscribe_suback strictEnv sampleClient []
    ⟨9, ["a/+", "secret/x", "$share//f", "bad", "$share/g1/work/#"], [2, 1, 1, 1, 0]⟩
    (by decide) rfl rfl (by decide)

/-! ## Close, dispatch and the Disconnected status -/

/-- The calls of `Close` on a connection that is not Disconnected and has its broker. -/
theorem Close_open (c : client) (tr : List Effect) (hs : c.status ≠ Disconnected)
    (hb : c.broker = true) :
    Close (c, tr) =
      some ({ c with status := Disconnected, conn := false },
        tr ++ [Effect.cancel,
            Effect.bridge ⟨c.info.clientID, c.info.username, BridgeAction.Disconnect, "", ""⟩]
          ++ (if c.conn = true then [Effect.connClose] else [])
          ++ [Effect.removeClient]
          ++ c.subMap.map (fun e => Effect.trieUnsubscribe e.2.topic e.2)
          ++ (if c.typ = CLIENT then
                Effect.onlineOfflineNotification c.info.clientID false ::
                  (match c.info.willMsg with
                   | some w => [Effect.publishMessage w]
                   | none => [])
              else [])
          ++ (if c.typ = ROUTER then [Effect.connectToDiscovery] else [])) := by
  unfold Close
  simp only [hs, hb, if_false, Bool.true_eq_false]
  have hcr : ¬ (CLIENT = ROUTER) := by decide
  have hrc : ¬ (ROUTER = CLIENT) := by decide
  by_cases hconn : c.conn = true <;> by_cases ht : c.typ = CLIENT <;>
    by_cases hr : c.typ = ROUTER <;> cases hw : c.info.willMsg <;>
    simp [hconn, ht, hr, hw, hcr, hrc]

/-- `Close` on a Disconnected connection returns at once. -/
theorem Close_disconnected (r : Run) (hs : r.1.status = Disconnected) : Close r = some r := by
  unfold Close
  simp [hs]

/-- After a `Close` that returns, the status is Disconnected. -/
theorem Close_status (r r' : Run) (h : Close r = some r') : r'.1.status = Disconnected := by
  by_cases hs : r.1.status = Disconnected
  · rw [Close_disconnected r hs] at h
    cases h
    exact hs
  · unfold Close at h
    simp only [hs, if_false] at h
    by_cases hb : r.1.broker = false
    · simp [hb] at h
    · simp only [hb, if_false] at h
      cases h
      rfl

/-- C15: `Close` is idempotent. Calling it a second time yields the very run (connection
state and calls) the first call left, so the second call has no effect; and on a
connection with its broker set the first call returns, with status Disconnected. -/
theorem Close_idempotent (r : Run) :
    (Close r).bind Close = Close r ∧
    (r.1.broker = true →
      ∃ r' : Run, Close r = some r' ∧ r'.1.status = Disconnected ∧ Close r' = some r') := by
  constructor
  · cases h : Close r with
    | none => rfl
    | some r' =>
      show Close r' = some r'
      exact Close_disconnected r' (Close_status r r' h)
  · intro hb
    obtain ⟨c, tr⟩ := r
    by_cases hs : c.status = Disconnected
    · exact ⟨(c, tr), Close_disconnected _ hs, hs, Close_disconnected _ hs⟩
    · have h := Close_open c tr hs hb
      exact ⟨_, h, rfl, Close_disconnected _ rfl⟩

/-- C15 on the sample connection: the first `Close` returns a Disconnected run and the
second leaves it as it is. -/
theorem Close_idempotent_witness :
    ∃ r' : Run, Close (sampleClient, []) = some r' ∧ r'.1.status = Disconnected ∧
      Close r' = some r' :=
  (Close_idempotent (sampleClient, [])).2 rfl

/-- C17: `Close` on a connection that is not Disconnected and has its broker sets the
status to Disconnected and, in this order, cancels the read loop, emits the Disconnect
bridge event, closes the socket if there is one, removes the connection from the registry
and calls the trie's Unsubscribe for every entry of the sub-map. For a Client-typed
connection it then emits the offline notification and calls `PublishMessage` with the
will-message, once, exactly when one is registered. For a Router-typed connection it
publishes no will-message and triggers the reconnection to discovery instead. -/
theorem Close_calls (c : client) (tr : List Effect) (hs : c.status ≠ Disconnected)
    (hb : c.broker = true) :
    (c.typ = CLIENT →
      Close (c, tr) =
        some ({ c with status := Disconnected, conn := false },
          tr ++ [Effect.cancel, Effect.bridge
              ⟨c.info.clientID, c.info.username, BridgeAction.Disconnect, "", ""⟩]
            ++ (if c.conn = true then [Effect.connClose] else [])
            ++ [Effect.removeClient]
            ++ c.subMap.map (fun e => Effect.trieUnsubscribe e.2.topic e.2)
            ++ [Effect.onlineOfflineNotification c.info.clientID false]
            ++ (match c.info.willMsg with
                | some w => [Effect.publishMessage w]
                | none => []))) ∧
    (c.typ = ROUTER →
      Close (c, tr) =
        some ({ c with status := Disconnected, conn := false },
          tr ++ [Effect.cancel, Effect.bridge
              ⟨c.info.clientID, c.info.username, BridgeAction.Disconnect, "", ""⟩]
            ++ (if c.conn = true then [Effect.connClose] else [])
            ++ [Effect.removeClient]
            ++ c.subMap.map (fun e => Effect.trieUnsubscribe e.2.topic e.2)
            ++ [Effect.connectToDiscovery])) := by
  have hcr : ¬ (CLIENT = ROUTER) := by decide
  have hrc : ¬ (ROUTER = CLIENT) := by decide
  have h := Close_open c tr hs hb
  constructor
  · intro ht
    rw [h]
    simp [ht, hcr]
  · intro ht
    rw [h]
    simp [ht, hrc]

/-- C17 on a Client-typed connection with one subscription and a will-message: the
will-message is published once, after the subscription has been unsubscribed. -/
theorem Close_calls_witness :
    Close (({ sampleClient with
        info := ⟨"c1", "alice", 30, some ⟨"will/c1", "bye", 0, 0, false, false⟩,
          "10.0.0.1", "10.0.0.2"⟩,
        subMap := [("a/+", ⟨"c1", "a/+", 1, false, ""⟩)] } : client), []) =
      some (({ sampleClient with
          info := ⟨"c1", "alice", 30, some ⟨"will/c1", "bye", 0, 0, false, false⟩,
            "10.0.0.1", "10.0.0.2"⟩,
          subMap := [("a/+", ⟨"c1", "a/+", 1, false, ""⟩)],
          status := Disconnected, conn := false } : client),
        [Effect.cancel, Effect.bridge ⟨"c1", "alice", BridgeAction.Disconnect, "", ""⟩,
          Effect.connClose, Effect.removeClient,
          Effect.trieUnsubscribe "a/+" ⟨"c1", "a/+", 1, false, ""⟩,
          Effect.onlineOfflineNotification "c1" false,
          Effect.publishMessage ⟨"will/c1", "bye", 0, 0, false, false⟩]) :=
  (Close_calls ({ sampleClient with
      info := ⟨"c1", "alice", 30, some ⟨"will/c1", "bye", 0, 0, false, false⟩,
        "10.0.0.1", "10.0.0.2"⟩,
      subMap := [("a/+", ⟨"c1", "a/+", 1, false, ""⟩)] } : client) [] (by decide) rfl).1 rfl

/-- C18: Disconnected is terminal. On a connection whose status is Disconnected every
packet `ProcessMessage` dispatches (the nil packet included), for every connection type,
and every `WriterPacket` call returns the run as it was: the connection state, status
included, is unchanged and no call is made on socket, bridge, trie, session or broker;
`WriterPacket` reports no error. -/
theorem disconnected_terminal (env : Env) (r : Run) (hs : r.1.status = Disconnected) :
    (∀ ca : Option ControlPacket, ProcessMessage env r ca = some r) ∧
    (∀ packet : Option ControlPacket, WriterPacket env r packet = some (r, false)) := by
  constructor
  · intro ca
    cases ca with
    | none => rfl
    | some pk =>
      cases pk <;>
        simp only [ProcessMessage, ProcessPublish, ProcessSubscribe, ProcessUnSubscribe,
          ProcessPing, processClientPublish, processRemotePublish, processClientSubscribe,
          processClientUnSubscribe, Close_disconnected r hs, hs, if_true, ite_self]
  · intro packet
    simp [WriterPacket, hs]

/-- C18 on the sample connection once it is Disconnected: a PUBLISH and a write change
nothing. -/
theorem disconnected_terminal_witness :
    (∀ ca : Option ControlPacket,
      ProcessMessage sampleEnv (({ sampleClient with status := Disconnected } : client), [])
        ca = some (({ sampleClient with status := Disconnected } : client), [])) ∧
    (∀ packet : Option ControlPacket,
      WriterPacket sampleEnv (({ sampleClient with status := Disconnected } : client), [])
        packet = some ((({ sampleClient with status := Disconnected } : client), []), false)) :=
  disconnected_terminal sampleEnv
    (({ sampleClient with status := Disconnected } : client), []) rfl

/-- C16: the duration handed to the read deadline. For every 16-bit keepalive the
nanosecond arithmetic does not wrap, `keepAlive` is the keepalive in seconds and `timeOut`
is exactly one and a half times that (45 s for keepalive 30). For keepalive 0 the loop
still sets a deadline, the current instant `now`, rather than no deadline. -/
theorem readDeadline_values :
    (∀ k : Nat, k < 65536 →
      keepAlive k = Second * k ∧ 2 * timeOut k = 3 * (Second * k) ∧
        Second * k + Int.tdiv (Second * k) 2 < 2 ^ 63) ∧
    timeOut 30 = 45 * Second ∧
    (∀ now : Int, readDeadline now 0 = some now) ∧
    (∀ (now : Int) (k : Nat), readDeadline now k ≠ none) := by
  have hk : ∀ k : Nat, k < 65536 → keepAlive k = Second * k := by
    intro k h
    unfold keepAlive wrapInt64 Second
    rw [Nat.mod_eq_of_lt h]
    omega
  have hd : ∀ k : Nat, k < 65536 → Int.tdiv (Second * k) 2 = 500000000 * k := by
    intro k h
    unfold Second
    rw [Int.tdiv_eq_ediv (by omega) (by omega)]
    omega
  refine ⟨?_, by decide, ?_, ?_⟩
  · intro k h
    refine ⟨hk k h, ?_, ?_⟩
    · unfold timeOut
      rw [hk k h, hd k h]
      unfold wrapInt64 Second
      omega
    · rw [hd k h]
      unfold Second
      omega
  · intro now
    have h0 : timeOut 0 = 0 := by decide
    simp [readDeadline, h0]
  · intro now k
    simp [readDeadline]

/-! ## The subscribe loop, filter by filter -/

theorem filterUpdate_info (env : Env) (c : client) (fq : String × Nat) :
    (filterUpdate env c fq).info = c.info ∧ (filterUpdate env c fq).status = c.status ∧
      (filterUpdate env c fq).conn = c.conn ∧ (filterUpdate env c fq).broker = c.broker := by
  unfold filterUpdate
  split_ifs
  · exact ⟨rfl, rfl, rfl, rfl⟩
  · split
    · exact ⟨rfl, rfl, rfl, rfl⟩
    · split <;> exact ⟨rfl, rfl, rfl, rfl⟩

theorem foldl_filterUpdate_info (env : Env) (l : List (String × Nat)) (c : client) :
    (l.foldl (filterUpdate env) c).info = c.info ∧
      (l.foldl (filterUpdate env) c).status = c.status ∧
      (l.foldl (filterUpdate env) c).conn = c.conn ∧
      (l.foldl (filterUpdate env) c).broker = c.broker := by
  induction l generalizing c with
  | nil => exact ⟨rfl, rfl, rfl, rfl⟩
  | cons fq rest ih =>
    obtain ⟨h1, h2, h3, h4⟩ := ih (filterUpdate env c fq)
    obtain ⟨g1, g2, g3, g4⟩ := filterUpdate_info env c fq
    rw [List.foldl_cons]
    exact ⟨h1.trans g1, h2.trans g2, h3.trans g3, h4.trans g4⟩

/-- The subscribe loop when `qoss` is long enough: it returns; the connection is the one
obtained by applying `filterUpdate` filter by filter, the calls are those of `filterCalls`
filter by filter, and the return codes are those of `specReturnCode`. -/
theorem subscribeLoop_eq (env : Env) (qoss : List Nat) :
    ∀ (topics : List String) (i : Nat) (c : client) (tr : List Effect) (rc : List Nat),
      i + topics.length ≤ qoss.length →
      subscribeLoop env qoss i topics (c, tr) rc =
        some (((topics.zip (qoss.drop i)).foldl (filterUpdate env) c,
            tr ++ ((topics.zip (qoss.drop i)).map
              (fun fq => filterCalls env c.info.clientID c.info.username fq.1 fq.2)).flatten),
          rc ++ List.zipWith (specReturnCode env c.info.clientID c.info.username) topics
            (qoss.drop i)) := by
  intro topics
  induction topics with
  | nil =>
    intro i c tr rc _
    simp [subscribeLoop]
  | cons topic rest ih =>
    intro i c tr rc hlen
    have hi : i < qoss.length := by
      simp only [List.length_cons] at hlen
      omega
    have hrest : (i + 1) + rest.length ≤ qoss.length := by
      simp only [List.length_cons] at hlen
      omega
    have hdrop : qoss.drop i = qoss[i] :: qoss.drop (i + 1) := List.drop_eq_getElem_cons hi
    have hget : qoss.get? i = some qoss[i] := by simp [hi]
    rw [hdrop, List.zipWith_cons_cons, List.zip_cons_cons, List.foldl_cons, List.map_cons,
      List.flatten_cons, subscribeLoop]
    by_cases hacl : env.CheckTopicAuth SUB c.info.username topic = true
    · simp only [hacl, Bool.true_eq_false, if_false]
      cases hp : parseShare topic with
      | none =>
        simp only []
        rw [ih (i + 1) c _ _ hrest]
        simp [filterUpdate, filterCalls, specReturnCode, hacl, hp, QosFailure]
      | some res =>
        obtain ⟨share, groupName, inner⟩ := res
        simp only [hget]
        cases hsub : env.Subscribe inner qoss[i]
            ⟨c.info.clientID, inner, qoss[i], share, groupName⟩ with
        | none =>
          simp only []
          rw [ih (i + 1) c _ _ hrest]
          simp [filterUpdate, filterCalls, specReturnCode, hacl, hp, hsub, QosFailure]
        | some rqos =>
          simp only []
          rw [ih (i + 1) _ _ _ hrest]
          simp [filterUpdate, filterCalls, specReturnCode, hacl, hp, hsub]
    · have hacl' : env.CheckTopicAuth SUB c.info.username topic = false := by
        simpa using hacl
      simp only [hacl', if_true]
      rw [ih (i + 1) c tr _ hrest]
      simp [filterUpdate, filterCalls, specReturnCode, hacl', QosFailure]

/-- `processClientSubscribe` on an open connection with enough requested QoS values: the
loop's connection and calls, then the SUBACK write, then (unless that write fails) one
write per pending retained message. -/
theorem processClientSubscribe_eq (env : Env) (c : client) (tr : List Effect)
    (packet : SubscribePacket) (hs : c.status ≠ Disconnected) (hb : c.broker = true)
    (hc : c.conn = true) (hq : packet.Topics.length ≤ packet.Qoss.length) :
    processClientSubscribe env (c, tr) packet =
      some ((packet.Topics.zip packet.Qoss).foldl (filterUpdate env) c,
        (tr ++ ((packet.Topics.zip packet.Qoss).map
          (fun fq => filterCalls env c.info.clientID c.info.username fq.1 fq.2)).flatten)
        ++ [Effect.write (ControlPacket.Suback packet.MessageID
            (List.zipWith (specReturnCode env c.info.clientID c.info.username)
              packet.Topics packet.Qoss))]
        ++ (if env.Write
              (tr ++ ((packet.Topics.zip packet.Qoss).map
                (fun fq => filterCalls env c.info.clientID c.info.username fq.1 fq.2)).flatten)
              (ControlPacket.Suback packet.MessageID
                (List.zipWith (specReturnCode env c.info.clientID c.info.username)
                  packet.Topics packet.Qoss)) = true then []
            else ((packet.Topics.zip packet.Qoss).foldl (filterUpdate env) c).rmsgs.map
              (fun rm => Effect.write (ControlPacket.Publish rm)))) := by
  obtain ⟨_, h2, h3, _⟩ := foldl_filterUpdate_info env (packet.Topics.zip packet.Qoss) c
  have hs1 : ((packet.Topics.zip packet.Qoss).foldl (filterUpdate env) c).status
      ≠ Disconnected := by rw [h2]; exact hs
  have hc1 : ((packet.Topics.zip packet.Qoss).foldl (filterUpdate env) c).conn = true := by
    rw [h3]; exact hc
  have hloop := subscribeLoop_eq env packet.Qoss packet.Topics 0 c tr [] (by simpa using hq)
  simp only [List.drop_zero, List.nil_append] at hloop
  unfold processClientSubscribe
  simp only [hs, hb, if_false, Bool.true_eq_false]
  rw [hloop]
  simp only
  rw [WriterPacket_open env _ _ _ hs1 hc1]
  simp only
  split_ifs with hw
  · simp
  · rw [writeRetained_open env _ _ _ hs1 hc1]

theorem filterCalls_trieSubscribe (env : Env) (clientID username t : String) (q0 : Nat)
    (topic : String) (q : Nat) (sub : subscription)
    (h : Effect.trieSubscribe topic q sub ∈ filterCalls env clientID username t q0) :
    q = q0 ∧ sub.qos = q0 ∧ sub.client = clientID ∧ sub.topic = topic ∧
      parseShare t = some (sub.share, sub.groupName, topic) ∧
      env.CheckTopicAuth SUB username t = true := by
  unfold filterCalls at h
  by_cases hacl : env.CheckTopicAuth SUB username t = true
  · simp only [hacl, Bool.true_eq_false, if_false] at h
    cases hp : parseShare t with
    | none => simp [hp] at h
    | some res =>
      obtain ⟨share, groupName, inner⟩ := res
      simp only [hp] at h
      cases hsub : env.Subscribe inner q0 ⟨clientID, inner, q0, share, groupName⟩ with
      | none =>
        simp [hsub] at h
        obtain ⟨h1, h2, h3⟩ := h
        subst h1 h2 h3
        exact ⟨rfl, rfl, rfl, rfl, rfl, hacl⟩
      | some rqos =>
        simp [hsub] at h
        obtain ⟨h1, h2, h3⟩ := h
        subst h1 h2 h3
        exact ⟨rfl, rfl, rfl, rfl, rfl, hacl⟩
  · have hacl' : env.CheckTopicAuth SUB username t = false := by simpa using hacl
    simp [hacl'] at h

theorem filterCalls_sessionAddTopic (env : Env) (clientID username t : String) (q0 : Nat)
    (t' : String) (q : Nat)
    (h : Effect.sessionAddTopic t' q ∈ filterCalls env clientID username t q0) :
    t' = t ∧ q = q0 := by
  unfold filterCalls at h
  by_cases hacl : env.CheckTopicAuth SUB username t = true
  · simp only [hacl, Bool.true_eq_false, if_false] at h
    cases hp : parseShare t with
    | none => simp [hp] at h
    | some res =>
      obtain ⟨share, groupName, inner⟩ := res
      simp only [hp] at h
      cases hsub : env.Subscribe inner q0 ⟨clientID, inner, q0, share, groupName⟩ with
      | none => simp [hsub] at h
      | some rqos =>
        simp [hsub] at h
        exact h
  · have hacl' : env.CheckTopicAuth SUB username t = false := by simpa using hacl
    simp [hacl'] at h

theorem filterUpdate_denied (env : Env) (c : client) (fq : String × Nat)
    (h : env.CheckTopicAuth SUB c.info.username fq.1 = false) : filterUpdate env c fq = c := by
  simp [filterUpdate, h]

/-! ## C11, C20 -/

/-- C11: an ACL denial changes no routing state. When the ACL denies a PUBLISH,
`processClientPublish` returns the run as it was: no bridge event, no write, no
`PublishMessage`. When the ACL denies a filter of a SUBSCRIBE, the loop gives that filter
the code 0x80 and otherwise runs exactly as on the packet without that filter and its
requested QoS: same connection (sub-map and pending retained list), same calls on trie,
session and bridge, same codes for the other filters. -/
theorem acl_denial_changes_nothing (env : Env) :
    (∀ (r : Run) (packet : PublishPacket), r.1.broker = true →
      env.CheckTopicAuth PUB r.1.info.username packet.TopicName = false →
      processClientPublish env r packet = some r) ∧
    (∀ (pre post : List String) (qpre qpost : List Nat) (t : String) (q : Nat) (c : client)
        (tr : List Effect),
      pre.length = qpre.length → post.length ≤ qpost.length →
      env.CheckTopicAuth SUB c.info.username t = false →
      ∃ (c' : client) (calls : List Effect) (codes1 codes2 : List Nat),
        subscribeLoop env (qpre ++ q :: qpost) 0 (pre ++ t :: post) (c, tr) [] =
          some ((c', tr ++ calls), codes1 ++ QosFailure :: codes2) ∧
        subscribeLoop env (qpre ++ qpost) 0 (pre ++ post) (c, tr) [] =
          some ((c', tr ++ calls), codes1 ++ codes2) ∧
        codes1.length = pre.length ∧ codes2.length = post.length) := by
  constructor
  · intro r packet hb hacl
    unfold processClientPublish
    by_cases hs : r.1.status = Disconnected
    · simp [hs]
    · simp [hs, hb, hacl]
  · intro pre post qpre qpost t q c tr hlen hpost hacl
    have h1 := subscribeLoop_eq env (qpre ++ q :: qpost) (pre ++ t :: post) 0 c tr []
      (by simp only [List.length_append, List.length_cons]; omega)
    have h2 := subscribeLoop_eq env (qpre ++ qpost) (pre ++ post) 0 c tr []
      (by simp only [List.length_append]; omega)
    simp only [List.drop_zero, List.nil_append] at h1 h2
    rw [List.zip_append hlen, List.zipWith_append _ _ _ _ _ hlen] at h1 h2
    simp only [List.zip_cons_cons, List.zipWith_cons_cons, List.foldl_append, List.foldl_cons,
      List.map_append, List.map_cons, List.flatten_append, List.flatten_cons] at h1 h2
    have hinfo := (foldl_filterUpdate_info env (pre.zip qpre) c).1
    have hu : filterUpdate env ((pre.zip qpre).foldl (filterUpdate env) c) (t, q) =
        (pre.zip qpre).foldl (filterUpdate env) c :=
      filterUpdate_denied env _ (t, q) (by rw [hinfo]; exact hacl)
    have hcalls : filterCalls env c.info.clientID c.info.username t q = [] := by
      simp [filterCalls, hacl]
    have hcode : specReturnCode env c.info.clientID c.info.username t q = QosFailure := by
      simp [specReturnCode, hacl, QosFailure]
    rw [hu, hcalls, hcode, List.nil_append] at h1
    refine ⟨_, _, _, _, h1, h2, ?_, ?_⟩
    · rw [List.length_zipWith]
      omega
    · rw [List.length_zipWith]
      omega

/-- C11 on the sample connection with the ACL that denies `secret/x`: the denied PUBLISH
leaves the run as it was, and the SUBSCRIBE loop over `a`, `secret/x`, `b` runs as over
`a`, `b`, with 0x80 as the second code. -/
theorem acl_denial_changes_nothing_witness :
    processClientPublish strictEnv (sampleClient, [])
        ⟨"secret/x", "hello", 1, 42, false, false⟩ = some (sampleClient, []) ∧
    ∃ (c' : client) (calls : List Effect) (codes1 codes2 : List Nat),
      subscribeLoop strictEnv ([1] ++ 1 :: [0]) 0 (["a"] ++ "secret/x" :: ["b"])
          (sampleClient, []) [] =
        some ((c', [] ++ calls), codes1 ++ QosFailure :: codes2) ∧
      subscribeLoop strictEnv ([1] ++ [0]) 0 (["a"] ++ ["b"]) (sampleClient, []) [] =
        some ((c', [] ++ calls), codes1 ++ codes2) ∧
      codes1.length = ["a"].length ∧ codes2.length = ["b"].length :=
  ⟨(acl_denial_changes_nothing strictEnv).1 (sampleClient, [])
      ⟨"secret/x", "hello", 1, 42, false, false⟩ rfl (by decide),
   (acl_denial_changes_nothing strictEnv).2 ["a"] ["b"] [1] [0] "secret/x" 1 sampleClient []
      rfl (by decide) (by decide)⟩

/-- C20, as the claim states it, fails: for the filter `a` requested at QoS 2 the
subscription record handed to the trie and stored in the sub-map carries QoS 2, and the
session entry is added with QoS 2, while the granted QoS in the SUBACK is 1. -/
theorem processClientSubscribe_requested_qos :
    processClientSubscribe sampleEnv (sampleClient, []) ⟨5, ["a"], [2]⟩ =
      some (({ sampleClient with subMap := [("a", ⟨"c1", "a", 2, false, ""⟩)] } : client),
        [Effect.bridge ⟨"c1", "alice", BridgeAction.Subscribe, "", "a"⟩,
          Effect.trieSubscribe "a" 2 ⟨"c1", "a", 2, false, ""⟩,
          Effect.sessionAddTopic "a" 2,
          Effect.trieRetained "a",
          Effect.write (ControlPacket.Suback 5 [1])]) ∧
    sampleEnv.Subscribe "a" 2 ⟨"c1", "a", 2, false, ""⟩ = some 1 := by
  decide

/-- C20, amended: every subscription record `processClientSubscribe` hands to the trie,
and every entry it adds to the session filter map, carries the QoS requested for its
filter as the packet has it (the value at the filter's position in the QoS list),
whatever that value is; the QoS the trie grants appears in the SUBACK only. -/
theorem processClientSubscribe_record_qos (env : Env) (c : client) (tr : List Effect)
    (packet : SubscribePacket) (hs : c.status ≠ Disconnected) (hb : c.broker = true)
    (hc : c.conn = true) (hq : packet.Topics.length ≤ packet.Qoss.length) :
    ∃ (r' : Run) (new : List Effect),
      processClientSubscribe env (c, tr) packet = some r' ∧ r'.2 = tr ++ new ∧
      (∀ (topic : String) (q : Nat) (sub : subscription),
        Effect.trieSubscribe topic q sub ∈ new →
          sub.qos = q ∧ ∃ (j : Nat) (t : String), packet.Topics[j]? = some t ∧
            packet.Qoss[j]? = some q ∧
            parseShare t = some (sub.share, sub.groupName, topic)) ∧
      (∀ (t : String) (q : Nat), Effect.sessionAddTopic t q ∈ new →
          ∃ j : Nat, packet.Topics[j]? = some t ∧ packet.Qoss[j]? = some q) := by
  refine ⟨_,
    ((packet.Topics.zip packet.Qoss).map
        (fun fq => filterCalls env c.info.clientID c.info.username fq.1 fq.2)).flatten
      ++ [Effect.write (ControlPacket.Suback packet.MessageID
          (List.zipWith (specReturnCode env c.info.clientID c.info.username)
            packet.Topics packet.Qoss))]
      ++ (if env.Write
            (tr ++ ((packet.Topics.zip packet.Qoss).map
              (fun fq => filterCalls env c.info.clientID c.info.username fq.1 fq.2)).flatten)
            (ControlPacket.Suback packet.MessageID
              (List.zipWith (specReturnCode env c.info.clientID c.info.username)
                packet.Topics packet.Qoss)) = true then []
          else ((packet.Topics.zip packet.Qoss).foldl (filterUpdate env) c).rmsgs.map
            (fun rm => Effect.write (ControlPacket.Publish rm))),
    processClientSubscribe_eq env c tr packet hs hb hc hq, ?_, ?_, ?_⟩
  · simp only [List.append_assoc]
  · intro topic q sub hmem
    simp only [List.mem_append, List.mem_flatten, List.mem_map, List.mem_singleton] at hmem
    rcases hmem with (⟨l, ⟨fq, hfq, rfl⟩, hl⟩ | h) | h
    · obtain ⟨h1, h2, _, _, h5, _⟩ :=
        filterCalls_trieSubscribe env _ _ fq.1 fq.2 topic q sub hl
      obtain ⟨j, hj⟩ := List.mem_iff_getElem?.mp hfq
      obtain ⟨hj1, hj2⟩ := List.getElem?_zip_eq_some.mp hj
      exact ⟨h2.trans h1.symm, j, fq.1, hj1, by rw [h1]; exact hj2, h5⟩
    · exact absurd h (by simp)
    · split_ifs at h
      · simp at h
      · simp at h
  · intro t q hmem
    simp only [List.mem_append, List.mem_flatten, List.mem_map, List.mem_singleton] at hmem
    rcases hmem with (⟨l, ⟨fq, hfq, rfl⟩, hl⟩ | h) | h
    · obtain ⟨h1, h2⟩ := filterCalls_sessionAddTopic env _ _ fq.1 fq.2 t q hl
      obtain ⟨j, hj⟩ := List.mem_iff_getElem?.mp hfq
      obtain ⟨hj1, hj2⟩ := List.getElem?_zip_eq_some.mp hj
      exact ⟨j, by rw [h1]; exact hj1, by rw [h2]; exact hj2⟩
    · exact absurd h (by simp)
    · split_ifs at h
      · simp at h
      · simp at h

/-- C20, amended, on the sample connection with QoS 2 requested. -/
theorem processClientSubscribe_record_qos_witness :
    ∃ (r' : Run) (new : List Effect),
      processClientSubscribe sampleEnv (sampleClient, []) ⟨5, ["a"], [2]⟩ = some r' ∧
      r'.2 = [] ++ new ∧
      (∀ (topic : String) (q : Nat) (sub : subscription),
        Effect.trieSubscribe topic q sub ∈ new →
          sub.qos = q ∧ ∃ (j : Nat) (t : String), ["a"][j]? = some t ∧
            ([2] : List Nat)[j]? = some q ∧
            parseShare t = some (sub.share, sub.groupName, topic)) ∧
      (∀ (t : String) (q : Nat), Effect.sessionAddTopic t q ∈ new →
          ∃ j : Nat, ["a"][j]? = some t ∧ ([2] : List Nat)[j]? = some q) :=
  processClientSubscribe_record_qos sampleEnv sampleClient [] ⟨5, ["a"], [2]⟩
    (by decide) rfl rfl (by decide)

/-! ## Shared filters -/

theorem takeWhile_dropWhile_stop (p : Char → Bool) (g : List Char) (y : Char) (f : List Char)
    (hg : ∀ x ∈ g, p x = true) (hy : p y = false) :
    (g ++ y :: f).takeWhile p = g ∧ (g ++ y :: f).dropWhile p = y :: f := by
  induction g with
  | nil => simp [List.takeWhile, List.dropWhile, hy]
  | cons x xs ih =>
    have hx : p x = true := hg x (by simp)
    obtain ⟨h1, h2⟩ := ih (fun z hz => hg z (by simp [hz]))
    simp [List.takeWhile, List.dropWhile, hx, h1, h2]

theorem shared_data (g f : String) :
    ("$share/" ++ g ++ "/" ++ f).data = "$share/".data ++ (g.data ++ '/' :: f.data) := by
  simp [String.data_append]

/-- A well-formed shared filter parses into its group and its inner filter. -/
theorem parseShare_shared (g f : String) (hne : g.data ≠ [])
    (hg : ∀ ch ∈ g.data, isGroupChar ch = true) (hf : '\n' ∉ f.data) :
    parseShare ("$share/" ++ g ++ "/" ++ f) = some (true, g, f) := by
  have hpre : "$share/".data.isPrefixOf ("$share/" ++ g ++ "/" ++ f).data = true := by
    rw [shared_data, List.isPrefixOf_iff_prefix]
    exact List.prefix_append _ _
  have hslash : isGroupChar '/' = false := by decide
  obtain ⟨h1, h2⟩ := takeWhile_dropWhile_stop isGroupChar g.data '/' f.data hg hslash
  have hdrop : ("$share/" ++ g ++ "/" ++ f).data.drop "$share/".data.length =
      g.data ++ '/' :: f.data := by
    rw [shared_data, List.drop_left]
  unfold parseShare HasPrefix FindStringSubmatch
  simp only [hpre, if_true, hdrop, h1, h2]
  simp [hne, hf]

theorem submatch_inv (body : List Char) (g f : String)
    (h : (match body.dropWhile isGroupChar with
        | '/' :: f' =>
          if body.takeWhile isGroupChar ≠ [] ∧ f'.contains '\n' = false then
            some (String.mk (body.takeWhile isGroupChar), String.mk f')
          else none
        | _ => none) = some (g, f)) :
    body = g.data ++ '/' :: f.data ∧ g.data ≠ [] ∧
      (∀ ch ∈ g.data, isGroupChar ch = true) ∧ '\n' ∉ f.data := by
  have hsplit := List.takeWhile_append_dropWhile isGroupChar body
  have hall : ∀ ch ∈ body.takeWhile isGroupChar, isGroupChar ch = true :=
    fun ch hch => List.mem_takeWhile_imp hch
  split at h
  · rename_i f' hdw
    split_ifs at h with hc
    simp only [Option.some.injEq, Prod.mk.injEq] at h
    obtain ⟨hg, hf⟩ := h
    subst hg hf
    refine ⟨?_, hc.1, hall, ?_⟩
    · rw [hdw] at hsplit
      exact hsplit.symm
    · have := hc.2
      simpa using this
  · exact absurd h (by simp)

/-- Whatever parses as a shared filter is of the form `$share/g/f`. -/
theorem parseShare_shared_inv (t : String) (share : Bool) (g f : String)
    (hpre : HasPrefix t "$share/" = true) (h : parseShare t = some (share, g, f)) :
    share = true ∧ t = "$share/" ++ g ++ "/" ++ f ∧ g.data ≠ [] ∧
      (∀ ch ∈ g.data, isGroupChar ch = true) ∧ '\n' ∉ f.data := by
  have hpre' : "$share/".data.isPrefixOf t.data = true := hpre
  have hbody : "$share/".data ++ t.data.drop "$share/".data.length = t.data :=
    List.prefix_iff_eq_append.mp (List.isPrefixOf_iff_prefix.mp hpre')
  unfold parseShare at h
  rw [if_pos hpre] at h
  cases hfs : FindStringSubmatch t with
  | none =>
    rw [hfs] at h
    exact absurd h (by simp)
  | some res =>
    obtain ⟨g', f'⟩ := res
    rw [hfs] at h
    simp only [Option.some.injEq, Prod.mk.injEq] at h
    obtain ⟨hsh, hg, hf⟩ := h
    subst hg hf
    unfold FindStringSubmatch at hfs
    rw [if_pos hpre'] at hfs
    obtain ⟨h1, h2, h3, h4⟩ := submatch_inv _ g' f' hfs
    refine ⟨hsh.symm, ?_, h2, h3, h4⟩
    apply String.ext
    rw [shared_data, ← hbody, h1]

/-- A filter outside the `$share/` namespace is taken as it is. -/
theorem parseShare_plain (t : String) (hpre : HasPrefix t "$share/" = false) :
    parseShare t = some (false, "", t) := by
  simp [parseShare, hpre]

/-- One iteration of the subscribe loop for a permitted filter that parses and that the
trie accepts. -/
theorem subscribeLoop_granted (env : Env) (qoss : List Nat) (i : Nat) (topic : String)
    (rest : List String) (c : client) (tr : List Effect) (rc : List Nat) (share : Bool)
    (g inner : String) (q rqos : Nat)
    (hacl : env.CheckTopicAuth SUB c.info.username topic = true)
    (hp : parseShare topic = some (share, g, inner)) (hq : qoss.get? i = some q)
    (hsub : env.Subscribe inner q ⟨c.info.clientID, inner, q, share, g⟩ = some rqos) :
    subscribeLoop env qoss i (topic :: rest) (c, tr) rc =
      subscribeLoop env qoss (i + 1) rest
        ({ c with
            subMap := mapSet c.subMap topic ⟨c.info.clientID, inner, q, share, g⟩,
            rmsgs := env.Retained inner c.rmsgs },
          tr ++ [Effect.bridge
              ⟨c.info.clientID, c.info.username, BridgeAction.Subscribe, "", topic⟩,
            Effect.trieSubscribe inner q ⟨c.info.clientID, inner, q, share, g⟩,
            Effect.sessionAddTopic topic q, Effect.trieRetained inner])
        (rc ++ [rqos]) := by
  have hq' : qoss[i]? = some q := by
    rw [← List.get?_eq_getElem?]
    exact hq
  rw [subscribeLoop]
  simp [hacl, hp, hq', hsub]

/-- One iteration of the subscribe loop for a permitted filter that does not parse. -/
theorem subscribeLoop_malformed (env : Env) (qoss : List Nat) (i : Nat) (topic : String)
    (rest : List String) (c : client) (tr : List Effect) (rc : List Nat)
    (hacl : env.CheckTopicAuth SUB c.info.username topic = true)
    (hp : parseShare topic = none) :
    subscribeLoop env qoss i (topic :: rest) (c, tr) rc =
      subscribeLoop env qoss (i + 1) rest
        (c, tr ++ [Effect.bridge
          ⟨c.info.clientID, c.info.username, BridgeAction.Subscribe, "", topic⟩])
        (rc ++ [QosFailure]) := by
  rw [subscribeLoop]
  simp [hacl, hp]

/-- One iteration of the subscribe loop for a permitted filter that parses and that the
trie rejects. -/
theorem subscribeLoop_rejected (env : Env) (qoss : List Nat) (i : Nat) (topic : String)
    (rest : List String) (c : client) (tr : List Effect) (rc : List Nat) (share : Bool)
    (g inner : String) (q : Nat)
    (hacl : env.CheckTopicAuth SUB c.info.username topic = true)
    (hp : parseShare topic = some (share, g, inner)) (hq : qoss.get? i = some q)
    (hsub : env.Subscribe inner q ⟨c.info.clientID, inner, q, share, g⟩ = none) :
    subscribeLoop env qoss i (topic :: rest) (c, tr) rc =
      subscribeLoop env qoss (i + 1) rest
        (c, tr ++ [Effect.bridge
              ⟨c.info.clientID, c.info.username, BridgeAction.Subscribe, "", topic⟩,
            Effect.trieSubscribe inner q ⟨c.info.clientID, inner, q, share, g⟩])
        (rc ++ [QosFailure]) := by
  have hq' : qoss[i]? = some q := by
    rw [← List.get?_eq_getElem?]
    exact hq
  rw [subscribeLoop]
  simp [hacl, hp, hq', hsub]

/-- One iteration of the subscribe loop for a permitted filter that parses: the trie's
Subscribe is called with the parsed record, and its answer decides how the loop goes on. -/
theorem subscribeLoop_parsed (env : Env) (qoss : List Nat) (i : Nat) (topic : String)
    (rest : List String) (c : client) (tr : List Effect) (rc : List Nat) (share : Bool)
    (g inner : String) (q : Nat)
    (hacl : env.CheckTopicAuth SUB c.info.username topic = true)
    (hp : parseShare topic = some (share, g, inner)) (hq : qoss.get? i = some q) :
    subscribeLoop env qoss i (topic :: rest) (c, tr) rc =
      match env.Subscribe inner q ⟨c.info.clientID, inner, q, share, g⟩ with
      | some rqos =>
        subscribeLoop env qoss (i + 1) rest
          ({ c with
              subMap := mapSet c.subMap topic ⟨c.info.clientID, inner, q, share, g⟩,
              rmsgs := env.Retained inner c.rmsgs },
            tr ++ [Effect.bridge
                ⟨c.info.clientID, c.info.username, BridgeAction.Subscribe, "", topic⟩,
              Effect.trieSubscribe inner q ⟨c.info.clientID, inner, q, share, g⟩,
              Effect.sessionAddTopic topic q, Effect.trieRetained inner])
          (rc ++ [rqos])
      | none =>
        subscribeLoop env qoss (i + 1) rest
          (c, tr ++ [Effect.bridge
                ⟨c.info.clientID, c.info.username, BridgeAction.Subscribe, "", topic⟩,
              Effect.trieSubscribe inner q ⟨c.info.clientID, inner, q, share, g⟩])
          (rc ++ [QosFailure]) := by
  cases hsub : env.Subscribe inner q ⟨c.info.clientID, inner, q, share, g⟩ with
  | none => exact subscribeLoop_rejected env qoss i topic rest c tr rc share g inner q hacl hp hq hsub
  | some rqos =>
    exact subscribeLoop_granted env qoss i topic rest c tr rc share g inner q rqos hacl hp hq hsub

/-! ## C12 -/

/-- C12: shared filters in the subscribe loop. (1) A permitted filter `$share/g/f` with `g`
non-empty over `[0-9A-Za-z_-]` and no line feed in `f`: the trie's Subscribe is called for
the inner filter `f` with the record (topic `f`, share true, group `g`); when the trie
accepts it, retained messages are collected for `f` and sub-map and session are keyed by
the original `$share/g/f`; when the trie rejects it, 0x80 is appended. (2) A permitted
filter that begins with `$share/` and is not of that form: 0x80 is appended and nothing is
registered, the connection staying as it is. (3) A permitted filter that does not begin
with `$share/`: it is registered unchanged, with share false and the empty group. -/
theorem subscribeLoop_share (env : Env) (qoss : List Nat) (i : Nat) (rest : List String)
    (c : client) (tr : List Effect) (rc : List Nat) :
    (∀ (g f : String) (q : Nat), g.data ≠ [] →
      (∀ ch ∈ g.data, isGroupChar ch = true) → '\n' ∉ f.data →
      env.CheckTopicAuth SUB c.info.username ("$share/" ++ g ++ "/" ++ f) = true →
      qoss.get? i = some q →
      subscribeLoop env qoss i (("$share/" ++ g ++ "/" ++ f) :: rest) (c, tr) rc =
        match env.Subscribe f q ⟨c.info.clientID, f, q, true, g⟩ with
        | some rqos =>
          subscribeLoop env qoss (i + 1) rest
            ({ c with
                subMap := mapSet c.subMap ("$share/" ++ g ++ "/" ++ f)
                  ⟨c.info.clientID, f, q, true, g⟩,
                rmsgs := env.Retained f c.rmsgs },
              tr ++ [Effect.bridge ⟨c.info.clientID, c.info.username,
                  BridgeAction.Subscribe, "", "$share/" ++ g ++ "/" ++ f⟩,
                Effect.trieSubscribe f q ⟨c.info.clientID, f, q, true, g⟩,
                Effect.sessionAddTopic ("$share/" ++ g ++ "/" ++ f) q,
                Effect.trieRetained f])
            (rc ++ [rqos])
        | none =>
          subscribeLoop env qoss (i + 1) rest
            (c, tr ++ [Effect.bridge ⟨c.info.clientID, c.info.username,
                  BridgeAction.Subscribe, "", "$share/" ++ g ++ "/" ++ f⟩,
                Effect.trieSubscribe f q ⟨c.info.clientID, f, q, true, g⟩])
            (rc ++ [QosFailure])) ∧
    (∀ t : String, HasPrefix t "$share/" = true →
      (∀ g f : String, g.data ≠ [] → (∀ ch ∈ g.data, isGroupChar ch = true) →
        '\n' ∉ f.data → t ≠ "$share/" ++ g ++ "/" ++ f) →
      env.CheckTopicAuth SUB c.info.username t = true →
      subscribeLoop env qoss i (t :: rest) (c, tr) rc =
        subscribeLoop env qoss (i + 1) rest
          (c, tr ++ [Effect.bridge
            ⟨c.info.clientID, c.info.username, BridgeAction.Subscribe, "", t⟩])
          (rc ++ [QosFailure])) ∧
    (∀ (t : String) (q : Nat), HasPrefix t "$share/" = false →
      env.CheckTopicAuth SUB c.info.username t = true →
      qoss.get? i = some q →
      subscribeLoop env qoss i (t :: rest) (c, tr) rc =
        match env.Subscribe t q ⟨c.info.clientID, t, q, false, ""⟩ with
        | some rqos =>
          subscribeLoop env qoss (i + 1) rest
            ({ c with
                subMap := mapSet c.subMap t ⟨c.info.clientID, t, q, false, ""⟩,
                rmsgs := env.Retained t c.rmsgs },
              tr ++ [Effect.bridge
                  ⟨c.info.clientID, c.info.username, BridgeAction.Subscribe, "", t⟩,
                Effect.trieSubscribe t q ⟨c.info.clientID, t, q, false, ""⟩,
                Effect.sessionAddTopic t q, Effect.trieRetained t])
            (rc ++ [rqos])
        | none =>
          subscribeLoop env qoss (i + 1) rest
            (c, tr ++ [Effect.bridge
                  ⟨c.info.clientID, c.info.username, BridgeAction.Subscribe, "", t⟩,
                Effect.trieSubscribe t q ⟨c.info.clientID, t, q, false, ""⟩])
            (rc ++ [QosFailure])) := by
  refine ⟨?_, ?_, ?_⟩
  · intro g f q hne hg hf hacl hq
    exact subscribeLoop_parsed env qoss i _ rest c tr rc true g f q hacl
      (parseShare_shared g f hne hg hf) hq
  · intro t hpre hform hacl
    apply subscribeLoop_malformed env qoss i t rest c tr rc hacl
    cases hp : parseShare t with
    | none => rfl
    | some res =>
      obtain ⟨share, g, f⟩ := res
      obtain ⟨_, h2, h3, h4, h5⟩ := parseShare_shared_inv t share g f hpre hp
      exact absurd h2 (hform g f h3 h4 h5)
  · intro t q hpre hacl hq
    exact subscribeLoop_parsed env qoss i t rest c tr rc false "" t q hacl
      (parseShare_plain t hpre) hq

/-- C12 on the sample connection: `$share/g1/work/#` is registered under `work/#` with
group `g1`, and `$share//f`, whose group is empty, gets 0x80 and no registration. -/
theorem subscribeLoop_share_witness :
    subscribeLoop sampleEnv [1] 0 [("$share/" ++ "g1" ++ "/" ++ "work/#")]
        (sampleClient, []) [] =
      some ((({ sampleClient with
            subMap := [("$share/g1/work/#", ⟨"c1", "work/#", 1, true, "g1"⟩)] } : client),
          [Effect.bridge ⟨"c1", "alice", BridgeAction.Subscribe, "", "$share/g1/work/#"⟩,
            Effect.trieSubscribe "work/#" 1 ⟨"c1", "work/#", 1, true, "g1"⟩,
            Effect.sessionAddTopic "$share/g1/work/#" 1,
            Effect.trieRetained "work/#"]),
        [1]) ∧
    subscribeLoop sampleEnv [1] 0 ["$share//f"] (sampleClient, []) [] =
      some ((sampleClient,
          [Effect.bridge ⟨"c1", "alice", BridgeAction.Subscribe, "", "$share//f"⟩]),
        [QosFailure]) :=
  ⟨((subscribeLoop_share sampleEnv [1] 0 [] sampleClient [] []).1 "g1" "work/#" 1
      (by decide) (by decide) (by decide) rfl rfl).trans (by decide),
   ((subscribeLoop_share sampleEnv [1] 0 [] sampleClient [] []).2.1 "$share//f" (by decide)
      (by
        intro g f hne hall _ h
        have hd := congrArg String.data h
        rw [shared_data] at hd
        cases hgd : g.data with
        | nil => exact hne hgd
        | cons x xs =>
          rw [hgd] at hd
          have hlit : ("$share//f" : String).data =
              ['$', 's', 'h', 'a', 'r', 'e', '/', '/', 'f'] := rfl
          rw [hlit] at hd
          have hx : x = '/' := by
            simp at hd
            exact hd.1.symm
          have hgx := hall x (by rw [hgd]; simp)
          rw [hx] at hgx
          exact absurd hgx (by decide))
      rfl).trans (by decide)⟩

/-! ## Sub-map lemmas -/

theorem mapGet_none (m : List (String × subscription)) (k : String)
    (h : mapGet m k = none) : ∀ e ∈ m, e.1 ≠ k := by
  intro e he hek
  unfold mapGet at h
  rw [Option.map_eq_none'] at h
  have := List.find?_eq_none.mp h e he
  simp [hek] at this

theorem mapSet_of_absent (m : List (String × subscription)) (k : String) (v : subscription)
    (h : mapGet m k = none) : mapSet m k v = m ++ [(k, v)] := by
  have hall := mapGet_none m k h
  have hany : m.any (fun e => decide (e.1 = k)) = false := by
    rw [List.any_eq_false]
    intro e he
    simpa using hall e he
  simp [mapSet, hany]

theorem mapGet_append_new (m : List (String × subscription)) (k : String) (v : subscription)
    (h : mapGet m k = none) : mapGet (m ++ [(k, v)]) k = some v := by
  have hall := mapGet_none m k h
  have hfind : m.find? (fun e => decide (e.1 = k)) = none := by
    rw [List.find?_eq_none]
    intro e he
    simpa using hall e he
  simp [mapGet, List.find?_append, hfind]

theorem mapDelete_append_new (m : List (String × subscription)) (k : String)
    (v : subscription) (h : mapGet m k = none) : mapDelete (m ++ [(k, v)]) k = m := by
  have hall := mapGet_none m k h
  have hfilter : m.filter (fun e => decide (e.1 ≠ k)) = m := by
    rw [List.filter_eq_self]
    intro e he
    simpa using hall e he
  simp only [mapDelete, List.filter_append, hfilter]
  simp

/-! ## C13, C14 -/

/-- C13, at the failing input: on the sample connection the filter `a` is subscribed at
QoS 0 and then again at QoS 1, and the connection is closed. The trie accepted two
records for `a`, the one with QoS 0 and the one with QoS 1; only the second, which
replaced the first in the sub-map, is handed to the trie's Unsubscribe. -/
theorem resubscribe_leaves_record :
    ((processClientSubscribe sampleEnv (sampleClient, []) ⟨1, ["a"], [0]⟩).bind
      (fun r1 => (processClientSubscribe sampleEnv r1 ⟨2, ["a"], [1]⟩).bind Close)).map
        (fun r => (subscribeCalls sampleEnv r.2, unsubscribeCalls r.2, r.1.status)) =
      some ([("a", ⟨"c1", "a", 0, false, ""⟩), ("a", ⟨"c1", "a", 1, false, ""⟩)],
        [("a", ⟨"c1", "a", 1, false, ""⟩)], Disconnected) := by
  decide

/-- C14: round trip. On an open connection whose sub-map has no entry for `F`, a SUBSCRIBE
of `F` that is permitted, parses and is accepted by the trie, followed by an UNSUBSCRIBE
of `F`, both return; the SUBSCRIBE makes exactly one trie Subscribe call, for the inner
filter and the record built for `F`; the UNSUBSCRIBE emits its bridge event, calls the
trie's Unsubscribe with that same inner filter and record, removes `F` from the session
and writes the UNSUBACK with its own message-id; and the sub-map is then what it was
before the SUBSCRIBE. -/
theorem subscribe_unsubscribe_roundtrip (env : Env) (c : client) (tr : List Effect)
    (F : String) (q mid1 mid2 : Nat) (share : Bool) (g inner : String) (rqos : Nat)
    (hs : c.status ≠ Disconnected) (hb : c.broker = true) (hc : c.conn = true)
    (hF : mapGet c.subMap F = none)
    (hacl : env.CheckTopicAuth SUB c.info.username F = true)
    (hp : parseShare F = some (share, g, inner))
    (hsub : env.Subscribe inner q ⟨c.info.clientID, inner, q, share, g⟩ = some rqos) :
    ∃ (r1 r2 : Run) (new : List Effect),
      processClientSubscribe env (c, tr) ⟨mid1, [F], [q]⟩ = some r1 ∧
      r1.2 = tr ++ new ∧
      subscribeCalls env new = [(inner, ⟨c.info.clientID, inner, q, share, g⟩)] ∧
      processClientUnSubscribe env r1 ⟨mid2, [F]⟩ = some r2 ∧
      r2.1.subMap = c.subMap ∧
      r2.2 = r1.2 ++ [Effect.bridge
          ⟨c.info.clientID, c.info.username, BridgeAction.Unsubscribe, "", F⟩,
        Effect.trieUnsubscribe inner ⟨c.info.clientID, inner, q, share, g⟩,
        Effect.sessionRemoveTopic F,
        Effect.write (ControlPacket.Unsuback mid2)] := by
  have hsubeq := processClientSubscribe_eq env c tr ⟨mid1, [F], [q]⟩ hs hb hc (by simp)
  have hupd : filterUpdate env c (F, q) =
      { c with
        subMap := c.subMap ++ [(F, ⟨c.info.clientID, inner, q, share, g⟩)],
        rmsgs := env.Retained inner c.rmsgs } := by
    simp [filterUpdate, hacl, hp, hsub, mapSet_of_absent c.subMap F _ hF]
  have hcalls : filterCalls env c.info.clientID c.info.username F q =
      [Effect.bridge ⟨c.info.clientID, c.info.username, BridgeAction.Subscribe, "", F⟩,
        Effect.trieSubscribe inner q ⟨c.info.clientID, inner, q, share, g⟩,
        Effect.sessionAddTopic F q, Effect.trieRetained inner] := by
    simp [filterCalls, hacl, hp, hsub]
  simp only [List.zip_cons_cons, List.zip_nil_right, List.foldl_cons, List.foldl_nil,
    List.map_cons, List.map_nil, List.flatten_cons, List.flatten_nil, List.append_nil,
    hupd, hcalls, List.append_assoc] at hsubeq
  have hun : ∀ tr1 : List Effect,
      processClientUnSubscribe env
        (({ c with
            subMap := c.subMap ++ [(F, ⟨c.info.clientID, inner, q, share, g⟩)],
            rmsgs := env.Retained inner c.rmsgs } : client), tr1) ⟨mid2, [F]⟩ =
        some (({ c with rmsgs := env.Retained inner c.rmsgs } : client),
          tr1 ++ [Effect.bridge
              ⟨c.info.clientID, c.info.username, BridgeAction.Unsubscribe, "", F⟩,
            Effect.trieUnsubscribe inner ⟨c.info.clientID, inner, q, share, g⟩,
            Effect.sessionRemoveTopic F,
            Effect.write (ControlPacket.Unsuback mid2)]) := by
    intro tr1
    unfold processClientUnSubscribe
    simp only [hs, hb, if_false, Bool.true_eq_false]
    simp only [unsubscribeLoop, mapGet_append_new c.subMap F _ hF]
    simp [WriterPacket, hs, hc, mapDelete_append_new c.subMap F _ hF]
  refine ⟨_, _, _, hsubeq, rfl, ?_, hun _, rfl, rfl⟩
  simp only [subscribeCalls, List.filterMap_append, List.filterMap_cons, hsub,
    Option.isSome_some, if_true, List.filterMap_nil]
  split_ifs
  · simp
  · simp [List.filterMap_map]

/-- C14 on the sample connection: SUBSCRIBE(3) of `a/+` at QoS 1, then UNSUBSCRIBE(4). -/
theorem subscribe_unsubscribe_roundtrip_witness :
    ∃ (r1 r2 : Run) (new : List Effect),
      processClientSubscribe sampleEnv (sampleClient, []) ⟨3, ["a/+"], [1]⟩ = some r1 ∧
      r1.2 = [] ++ new ∧
      subscribeCalls sampleEnv new = [("a/+", ⟨"c1", "a/+", 1, false, ""⟩)] ∧
      processClientUnSubscribe sampleEnv r1 ⟨4, ["a/+"]⟩ = some r2 ∧
      r2.1.subMap = sampleClient.subMap ∧
      r2.2 = r1.2 ++ [Effect.bridge ⟨"c1", "alice", BridgeAction.Unsubscribe, "", "a/+"⟩,
        Effect.trieUnsubscribe "a/+" ⟨"c1", "a/+", 1, false, ""⟩,
        Effect.sessionRemoveTopic "a/+",
        Effect.write (ControlPacket.Unsuback 4)] :=
  subscribe_unsubscribe_roundtrip sampleEnv sampleClient [] "a/+" 1 3 4 false "" "a/+" 1
    (by decide) rfl rfl rfl rfl (by decide) rfl

/-! ## The pending retained list -/

theorem Close_rmsgs (r r' : Run) (h : Close r = some r') : r'.1.rmsgs = r.1.rmsgs := by
  unfold Close at h
  by_cases hs : r.1.status = Disconnected
  · simp only [hs, if_true] at h
    cases h
    rfl
  · simp only [hs, if_false] at h
    by_cases hb : r.1.broker = false
    · simp [hb] at h
    · simp only [hb, if_false] at h
      cases h
      rfl

theorem WriterPacket_rmsgs (env : Env) (r : Run) (packet : Option ControlPacket) (r' : Run)
    (err : Bool) (h : WriterPacket env r packet = some (r', err)) :
    r'.1.rmsgs = r.1.rmsgs := by
  unfold WriterPacket at h
  by_cases hs : r.1.status = Disconnected
  · simp only [hs, if_true] at h
    cases h
    rfl
  · simp only [hs, if_false] at h
    cases packet with
    | none =>
      cases h
      rfl
    | some p =>
      by_cases hc : r.1.conn = true
      · simp only [hc, Bool.true_eq_false, if_false, Option.some.injEq, Prod.mk.injEq] at h
        rw [← h.1]
      · have hc' : r.1.conn = false := by simpa using hc
        simp only [hc', if_true] at h
        cases hcl : Close r with
        | none => simp [hcl] at h
        | some r1 =>
          simp only [hcl, Option.some.injEq, Prod.mk.injEq] at h
          rw [← h.1]
          exact Close_rmsgs r r1 hcl

theorem writeRetained_rmsgs (env : Env) (l : List PublishPacket) (r r' : Run)
    (h : writeRetained env l r = some r') : r'.1.rmsgs = r.1.rmsgs := by
  induction l generalizing r with
  | nil =>
    simp only [writeRetained, Option.some.injEq] at h
    rw [← h]
  | cons rm rest ih =>
    rw [writeRetained] at h
    cases hw : WriterPacket env r (some (ControlPacket.Publish rm)) with
    | none => simp [hw] at h
    | some res =>
      obtain ⟨r1, err⟩ := res
      simp only [hw] at h
      rw [ih r1 h]
      exact WriterPacket_rmsgs env r _ r1 err hw

theorem unsubscribeLoop_rmsgs (topics : List String) (r : Run) :
    (unsubscribeLoop topics r).1.rmsgs = r.1.rmsgs := by
  induction topics generalizing r with
  | nil => rfl
  | cons topic rest ih =>
    rw [unsubscribeLoop]
    cases hg : mapGet r.1.subMap topic with
    | none =>
      simp only []
      rw [ih]
    | some sub =>
      simp only []
      rw [ih]

theorem filterUpdate_rmsgs (env : Env)
    (hret : ∀ (topic : String) (l : List PublishPacket), l <+: env.Retained topic l)
    (c : client) (fq : String × Nat) : c.rmsgs <+: (filterUpdate env c fq).rmsgs := by
  unfold filterUpdate
  split_ifs
  · exact List.prefix_refl _
  · split
    · exact List.prefix_refl _
    · split
      · exact List.prefix_refl _
      · exact hret _ _

theorem foldl_filterUpdate_rmsgs (env : Env)
    (hret : ∀ (topic : String) (l : List PublishPacket), l <+: env.Retained topic l)
    (l : List (String × Nat)) (c : client) :
    c.rmsgs <+: (l.foldl (filterUpdate env) c).rmsgs := by
  induction l generalizing c with
  | nil => exact List.prefix_refl _
  | cons fq rest ih =>
    rw [List.foldl_cons]
    exact (filterUpdate_rmsgs env hret c fq).trans (ih (filterUpdate env c fq))

/-- The subscribe loop, whenever it returns, only extends the pending list. -/
theorem subscribeLoop_rmsgs (env : Env)
    (hret : ∀ (topic : String) (l : List PublishPacket), l <+: env.Retained topic l)
    (qoss : List Nat) :
    ∀ (topics : List String) (i : Nat) (r : Run) (rc : List Nat) (r' : Run) (rc' : List Nat),
      subscribeLoop env qoss i topics r rc = some (r', rc') → r.1.rmsgs <+: r'.1.rmsgs := by
  intro topics
  induction topics with
  | nil =>
    intro i r rc r' rc' h
    simp only [subscribeLoop, Option.some.injEq, Prod.mk.injEq] at h
    rw [← h.1]
  | cons topic rest ih =>
    intro i r rc r' rc' h
    rw [subscribeLoop] at h
    by_cases hacl : env.CheckTopicAuth SUB r.1.info.username topic = true
    swap
    · have hacl' : env.CheckTopicAuth SUB r.1.info.username topic = false := by
        simpa using hacl
      simp only [hacl', if_true] at h
      exact ih _ _ _ _ _ h
    · simp only [hacl, Bool.true_eq_false, if_false] at h
      cases hp : parseShare topic with
      | none =>
        simp only [hp] at h
        have hstep := ih _ _ _ _ _ h
        exact hstep
      | some res =>
        obtain ⟨share, groupName, inner⟩ := res
        simp only [hp] at h
        cases hq : qoss[i]? with
        | none =>
          simp only [List.get?_eq_getElem?, hq] at h
          exact absurd h (by simp)
        | some q =>
          simp only [List.get?_eq_getElem?, hq] at h
          cases hsub : env.Subscribe inner q
              ⟨r.1.info.clientID, inner, q, share, groupName⟩ with
          | none =>
            simp only [hsub] at h
            have hstep := ih _ _ _ _ _ h
            exact hstep
          | some rqos =>
            simp only [hsub] at h
            have hstep := ih _ _ _ _ _ h
            exact (hret inner r.1.rmsgs).trans hstep

theorem filterCalls_no_write (env : Env) (clientID username t : String) (q : Nat)
    (p : ControlPacket) : Effect.write p ∉ filterCalls env clientID username t q := by
  unfold filterCalls
  split_ifs
  · simp
  · split
    · simp
    · split <;> simp

theorem processClientPublish_rmsgs (env : Env) (r : Run) (packet : PublishPacket) (r' : Run)
    (h : processClientPublish env r packet = some r') : r'.1.rmsgs = r.1.rmsgs := by
  unfold processClientPublish at h
  by_cases hs : r.1.status = Disconnected
  · simp only [hs, if_true, Option.some.injEq] at h
    rw [← h]
  · simp only [hs, if_false] at h
    split_ifs at h
    · simp only [Option.some.injEq] at h
      rw [← h]
    · simp only [Option.some.injEq] at h
      rw [← h]
    · cases hw : WriterPacket env
          (r.1, r.2 ++ [Effect.bridge ⟨r.1.info.clientID, r.1.info.username,
            BridgeAction.Publish, packet.Payload, packet.TopicName⟩])
          (some (ControlPacket.Puback packet.MessageID)) with
      | none => simp [hw] at h
      | some res =>
        obtain ⟨r1, err⟩ := res
        have h1 := WriterPacket_rmsgs env _ _ r1 err hw
        simp only [hw] at h
        split_ifs at h
        · simp only [Option.some.injEq] at h
          rw [← h]
          exact h1
        · simp only [Option.some.injEq] at h
          rw [← h]
          exact h1
    · simp only [Option.some.injEq] at h
      rw [← h]
    · simp only [Option.some.injEq] at h
      rw [← h]

theorem processClientSubscribe_rmsgs (env : Env)
    (hret : ∀ (topic : String) (l : List PublishPacket), l <+: env.Retained topic l)
    (r : Run) (packet : SubscribePacket) (r' : Run)
    (h : processClientSubscribe env r packet = some r') : r.1.rmsgs <+: r'.1.rmsgs := by
  unfold processClientSubscribe at h
  split_ifs at h
  · simp only [Option.some.injEq] at h
    rw [← h]
  · simp only [Option.some.injEq] at h
    rw [← h]
  · cases hl : subscribeLoop env packet.Qoss 0 packet.Topics r [] with
    | none => simp [hl] at h
    | some res =>
      obtain ⟨r1, retcodes⟩ := res
      have h1 := subscribeLoop_rmsgs env hret _ _ _ _ _ _ _ hl
      simp only [hl] at h
      cases hw : WriterPacket env r1
          (some (ControlPacket.Suback packet.MessageID retcodes)) with
      | none => simp [hw] at h
      | some res2 =>
        obtain ⟨r2, err⟩ := res2
        have h2 := WriterPacket_rmsgs env _ _ r2 err hw
        simp only [hw] at h
        split_ifs at h
        · simp only [Option.some.injEq] at h
          rw [← h, h2]
          exact h1
        · rw [writeRetained_rmsgs env _ _ _ h, h2]
          exact h1

theorem processClientUnSubscribe_rmsgs (env : Env) (r : Run) (packet : UnsubscribePacket)
    (r' : Run) (h : processClientUnSubscribe env r packet = some r') :
    r'.1.rmsgs = r.1.rmsgs := by
  unfold processClientUnSubscribe at h
  split_ifs at h
  · simp only [Option.some.injEq] at h
    rw [← h]
  · simp only [Option.some.injEq] at h
    rw [← h]
  · cases hw : WriterPacket env (unsubscribeLoop packet.Topics r)
        (some (ControlPacket.Unsuback packet.MessageID)) with
    | none => simp [hw] at h
    | some res =>
      obtain ⟨r1, err⟩ := res
      have h1 := WriterPacket_rmsgs env _ _ r1 err hw
      simp only [hw, Option.some.injEq] at h
      rw [← h, h1]
      exact unsubscribeLoop_rmsgs packet.Topics r

theorem ProcessPing_rmsgs (env : Env) (r r' : Run) (h : ProcessPing env r = some r') :
    r'.1.rmsgs = r.1.rmsgs := by
  unfold ProcessPing at h
  split_ifs at h
  · simp only [Option.some.injEq] at h
    rw [← h]
  · cases hw : WriterPacket env r (some ControlPacket.Pingresp) with
    | none => simp [hw] at h
    | some res =>
      obtain ⟨r1, err⟩ := res
      have h1 := WriterPacket_rmsgs env _ _ r1 err hw
      simp only [hw, Option.some.injEq] at h
      rw [← h]
      exact h1

/-- Whatever packet is dispatched, the pending list afterwards starts with the pending
list before. -/
theorem ProcessMessage_rmsgs (env : Env)
    (hret : ∀ (topic : String) (l : List PublishPacket), l <+: env.Retained topic l)
    (r : Run) (ca : Option ControlPacket) (r' : Run)
    (h : ProcessMessage env r ca = some r') : r.1.rmsgs <+: r'.1.rmsgs := by
  have heq : ∀ {a b : List PublishPacket}, b = a → a <+: b := by
    intro a b e
    rw [e]
  have hid : ∀ x : Run, some r = some x → r.1.rmsgs <+: x.1.rmsgs := by
    intro x e
    simp only [Option.some.injEq] at e
    rw [← e]
  cases ca with
  | none => exact hid _ h
  | some pk =>
    cases pk with
    | Publish packet =>
      simp only [ProcessMessage, ProcessPublish] at h
      split_ifs at h
      · exact heq (processClientPublish_rmsgs env r packet r' h)
      · unfold processRemotePublish at h
        split_ifs at h
        · exact hid _ h
        · simp only [Option.some.injEq] at h
          rw [← h]
        · exact hid _ h
      · exact hid _ h
    | Subscribe packet =>
      simp only [ProcessMessage, ProcessSubscribe] at h
      split_ifs at h
      · exact processClientSubscribe_rmsgs env hret r packet r' h
      · exact hid _ h
    | Unsubscribe packet =>
      simp only [ProcessMessage, ProcessUnSubscribe] at h
      split_ifs at h
      · exact heq (processClientUnSubscribe_rmsgs env r packet r' h)
      · exact hid _ h
    | Pingreq =>
      simp only [ProcessMessage] at h
      exact heq (ProcessPing_rmsgs env r r' h)
    | Disconnect =>
      simp only [ProcessMessage] at h
      exact heq (Close_rmsgs r r' h)
    | Connack => exact hid _ h
    | Connect => exact hid _ h
    | Puback mid => exact hid _ h
    | Pubrec => exact hid _ h
    | Pubrel => exact hid _ h
    | Pubcomp => exact hid _ h
    | Suback mid codes => exact hid _ h
    | Unsuback mid => exact hid _ h
    | Pingresp => exact hid _ h

/-! ## C21 -/

/-- C21: no handler removes a message from the pending retained list. Provided the trie's
Retained only appends to the list it is handed: (1) for every packet `ProcessMessage`
dispatches, the list afterwards has the list before as a prefix, and `WriterPacket` leaves
it as it is; (2) `processClientSubscribe` on an open connection with enough requested QoS
values returns with the list at entry followed by the messages collected for the packet,
makes no write before the SUBACK, and after the SUBACK write writes every message pending
at entry followed by the collected ones, in that order; when the SUBACK write fails it
writes no retained message. -/
theorem rmsgs_only_grows (env : Env)
    (hret : ∀ (topic : String) (l : List PublishPacket), l <+: env.Retained topic l) :
    (∀ (r : Run) (ca : Option ControlPacket) (r' : Run),
      ProcessMessage env r ca = some r' → r.1.rmsgs <+: r'.1.rmsgs) ∧
    (∀ (r : Run) (packet : Option ControlPacket) (r' : Run) (err : Bool),
      WriterPacket env r packet = some (r', err) → r'.1.rmsgs = r.1.rmsgs) ∧
    (∀ (c : client) (tr : List Effect) (packet : SubscribePacket),
      c.status ≠ Disconnected → c.broker = true → c.conn = true →
      packet.Topics.length ≤ packet.Qoss.length →
      ∃ (c' : client) (calls : List Effect) (codes : List Nat)
          (collected : List PublishPacket),
        c'.rmsgs = c.rmsgs ++ collected ∧
        (∀ p : ControlPacket, Effect.write p ∉ calls) ∧
        processClientSubscribe env (c, tr) packet =
          some (c', tr ++ calls
            ++ [Effect.write (ControlPacket.Suback packet.MessageID codes)]
            ++ (if env.Write (tr ++ calls)
                  (ControlPacket.Suback packet.MessageID codes) = true then []
                else (c.rmsgs ++ collected).map
                  (fun rm => Effect.write (ControlPacket.Publish rm))))) := by
  refine ⟨fun r ca r' h => ProcessMessage_rmsgs env hret r ca r' h,
    fun r packet r' err h => WriterPacket_rmsgs env r packet r' err h, ?_⟩
  intro c tr packet hs hb hc hq
  have heq := processClientSubscribe_eq env c tr packet hs hb hc hq
  obtain ⟨collected, hcol⟩ :=
    foldl_filterUpdate_rmsgs env hret (packet.Topics.zip packet.Qoss) c
  refine ⟨(packet.Topics.zip packet.Qoss).foldl (filterUpdate env) c,
    ((packet.Topics.zip packet.Qoss).map
      (fun fq => filterCalls env c.info.clientID c.info.username fq.1 fq.2)).flatten,
    List.zipWith (specReturnCode env c.info.clientID c.info.username)
      packet.Topics packet.Qoss,
    collected, hcol.symm, ?_, ?_⟩
  · intro p hmem
    simp only [List.mem_flatten, List.mem_map] at hmem
    obtain ⟨l, ⟨fq, _, rfl⟩, hl⟩ := hmem
    exact filterCalls_no_write env _ _ fq.1 fq.2 p hl
  · rw [heq, ← hcol]

/-- C21 on the sample connection with one message pending and a trie that holds a retained
message for the filter: after SUBACK(7) the pending message is written, then the
collected one. -/
theorem rmsgs_only_grows_witness :
    ∃ (c' : client) (calls : List Effect) (codes : List Nat)
        (collected : List PublishPacket),
      c'.rmsgs = pendingClient.rmsgs ++ collected ∧
      (∀ p : ControlPacket, Effect.write p ∉ calls) ∧
      processClientSubscribe retainingEnv (pendingClient, []) ⟨7, ["a"], [1]⟩ =
        some (c', [] ++ calls
          ++ [Effect.write (ControlPacket.Suback 7 codes)]
          ++ (if retainingEnv.Write ([] ++ calls) (ControlPacket.Suback 7 codes) = true
              then []
              else (pendingClient.rmsgs ++ collected).map
                (fun rm => Effect.write (ControlPacket.Publish rm)))) :=
  (rmsgs_only_grows retainingEnv (fun _ l => List.prefix_append l _)).2.2
    pendingClient [] ⟨7, ["a"], [1]⟩ (by decide) rfl rfl (by decide)

end broker

end Rhmq
